import Mathlib

/-!
# Go2SourcePawn: the type mapper and the statement emitter of `ast_to_sp.go`

A shallow embedding of `src/srcgo/ast_to_sp/ast_to_sp.go`.

* Go strings are lists of characters, a `strings.Builder` is the list written so far.
* The syntax tree of `go/ast` and the types of `go/types` are inductive types that keep
  the fields the generator reads.
* A Go run-time panic (failed type assertion, index or slice bound out of range) is `none`.
* The collaborators of package `ASTMod` (type information, diagnostic reporter, pretty
  printer) are not part of the file: they are parameters, and a call of the reporter is
  recorded in a log.
-/

namespace GoToSPGen

/-- Go strings, modelled as lists of characters. -/
abbrev Str := List Char

/-! ## Library functions of `strings`, `unicode` and `fmt` used by the generator -/

/-- Letters of the Latin-1 range, the `properties` table of Go's `unicode` package:
`A-Z`, `a-z`, U+00AA, U+00B5, U+00BA, U+00C0-U+00D6, U+00D8-U+00F6, U+00F8-U+00FF. -/
def latin1Letter (c : Char) : Bool :=
  let v := c.val.toNat
  (65 ≤ v && v ≤ 90) || (97 ≤ v && v ≤ 122) || v == 170 || v == 181 || v == 186 ||
    (192 ≤ v && v ≤ 214) || (216 ≤ v && v ≤ 246) || (248 ≤ v && v ≤ 255)

/-- Go's `unicode.IsLetter`: the Latin-1 table below U+0100, and the range table
`unicode.Letter` (the parameter `Letter`) above. -/
def IsLetter (Letter : Char → Bool) (c : Char) : Bool :=
  if c.val.toNat ≤ 255 then latin1Letter c else Letter c

/-- Go's `strings.HasPrefix`. -/
def HasPrefix : Str → Str → Bool
  | _, [] => true
  | [], _ :: _ => false
  | c :: s, p :: ps => c == p && HasPrefix s ps

/-- Worker of `Replace`: `skip` characters of a match are still to be dropped. -/
def ReplaceAux (old new : Str) : Nat → Str → Str
  | _, [] => []
  | skip + 1, _ :: s => ReplaceAux old new skip s
  | 0, c :: s =>
    if HasPrefix (c :: s) old then new ++ ReplaceAux old new (old.length - 1) s
    else c :: ReplaceAux old new 0 s

/-- Go's `strings.Replace(s, old, new, -1)` for a non-empty `old`: every non-overlapping
occurrence of `old`, from the left, is replaced by `new`. -/
def Replace (s old new : Str) : Str := ReplaceAux old new 0 s

/-- Go's `strings.TrimFunc`: the leading and the trailing characters satisfying `f` are
removed. -/
def TrimFunc (s : Str) (f : Char → Bool) : Str :=
  ((s.dropWhile f).reverse.dropWhile f).reverse

/-- Go's `fmt.Sprintf("%d", n)` for an `int64`. -/
def Sprintf_d (n : Int) : Str :=
  if n < 0 then '-' :: Nat.toDigits 10 n.natAbs else Nat.toDigits 10 n.toNat

/-! ## Tokens of `go/token` -/

/-- The tokens of `go/token` that occur in the nodes the generator reads. -/
inductive Token where
  | INT | FLOAT | IMAG | CHAR | STRING
  | ADD | SUB | MUL | QUO | REM
  | AND | OR | XOR | SHL | SHR | AND_NOT
  | ADD_ASSIGN | SUB_ASSIGN | MUL_ASSIGN | QUO_ASSIGN | REM_ASSIGN
  | AND_ASSIGN | OR_ASSIGN | XOR_ASSIGN | SHL_ASSIGN | SHR_ASSIGN | AND_NOT_ASSIGN
  | LAND | LOR | ARROW | INC | DEC
  | EQL | LSS | GTR | ASSIGN | NOT
  | NEQ | LEQ | GEQ | DEFINE
  | BREAK | CONTINUE | GOTO | FALLTHROUGH
  | CONST | TYPE | VAR | IMPORT
  deriving DecidableEq, Repr

/-- Go's `token.Token.String`. -/
def Token.String : Token → Str
  | .INT => "INT".toList | .FLOAT => "FLOAT".toList | .IMAG => "IMAG".toList
  | .CHAR => "CHAR".toList | .STRING => "STRING".toList
  | .ADD => "+".toList | .SUB => "-".toList | .MUL => "*".toList | .QUO => "/".toList
  | .REM => "%".toList
  | .AND => "&".toList | .OR => "|".toList | .XOR => "^".toList | .SHL => "<<".toList
  | .SHR => ">>".toList | .AND_NOT => "&^".toList
  | .ADD_ASSIGN => "+=".toList | .SUB_ASSIGN => "-=".toList | .MUL_ASSIGN => "*=".toList
  | .QUO_ASSIGN => "/=".toList | .REM_ASSIGN => "%=".toList
  | .AND_ASSIGN => "&=".toList | .OR_ASSIGN => "|=".toList | .XOR_ASSIGN => "^=".toList
  | .SHL_ASSIGN => "<<=".toList | .SHR_ASSIGN => ">>=".toList
  | .AND_NOT_ASSIGN => "&^=".toList
  | .LAND => "&&".toList | .LOR => "||".toList | .ARROW => "<-".toList
  | .INC => "++".toList | .DEC => "--".toList
  | .EQL => "==".toList | .LSS => "<".toList | .GTR => ">".toList | .ASSIGN => "=".toList
  | .NOT => "!".toList
  | .NEQ => "!=".toList | .LEQ => "<=".toList | .GEQ => ">=".toList | .DEFINE => ":=".toList
  | .BREAK => "break".toList | .CONTINUE => "continue".toList | .GOTO => "goto".toList
  | .FALLTHROUGH => "fallthrough".toList
  | .CONST => "const".toList | .TYPE => "type".toList | .VAR => "var".toList
  | .IMPORT => "import".toList

/-! ## Expressions of `go/ast` -/

/-- Node `ast.Ident`. -/
structure Ident where
  NamePos : Nat
  Name : Str
  deriving DecidableEq, Repr

/-- The expression nodes of `go/ast`. A field that may be a nil interface is an `Option`;
`Other` stands for the node kinds that `GetExprString` has no case for. -/
inductive Expr where
  | Ident (id : Ident)
  | BasicLit (ValuePos : Nat) (Kind : Token) (Value : Str)
  | IndexExpr (X Index : Expr)
  | KeyValueExpr (Key Value : Expr)
  | ParenExpr (X : Expr)
  | StarExpr (X : Expr)
  | UnaryExpr (Op : Token) (X : Expr)
  | CallExpr (Fun : Expr) (Args : List Expr)
  | BinaryExpr (X : Expr) (Op : Token) (Y : Expr)
  | SelectorExpr (X : Expr) (Sel : Ident)
  | CompositeLit (Typ : Option Expr) (Elts : List Expr)
  | TypeAssertExpr (X : Expr) (Typ : Option Expr)
  | SliceExpr (X : Expr) (Low High Max : Option Expr)
  | StructType (Fields : List (List Ident × Expr))
  | FuncType (Params : List (List Ident × Expr)) (Results : Option (List (List Ident × Expr)))
  | Other (Pos : Nat)
  deriving Repr

/-! ## Types of `go/types` -/

/-- The basic types of `go/types` (`types.Typ` and the aliases `byte` and `rune`). -/
inductive BasicKind where
  | Invalid | Bool | Int | Int8 | Int16 | Int32 | Int64
  | Uint | Uint8 | Uint16 | Uint32 | Uint64 | Uintptr
  | Float32 | Float64 | Complex64 | Complex128 | String | UnsafePointer
  | UntypedBool | UntypedInt | UntypedRune | UntypedFloat | UntypedComplex
  | UntypedString | UntypedNil | Byte | Rune
  deriving DecidableEq, Repr

/-- The name of a basic type, which is what `(*types.Basic).String` prints. -/
def BasicKind.Name : BasicKind → Str
  | .Invalid => "invalid type".toList
  | .Bool => "bool".toList | .Int => "int".toList | .Int8 => "int8".toList
  | .Int16 => "int16".toList | .Int32 => "int32".toList | .Int64 => "int64".toList
  | .Uint => "uint".toList | .Uint8 => "uint8".toList | .Uint16 => "uint16".toList
  | .Uint32 => "uint32".toList | .Uint64 => "uint64".toList | .Uintptr => "uintptr".toList
  | .Float32 => "float32".toList | .Float64 => "float64".toList
  | .Complex64 => "complex64".toList | .Complex128 => "complex128".toList
  | .String => "string".toList | .UnsafePointer => "unsafe.Pointer".toList
  | .UntypedBool => "untyped bool".toList | .UntypedInt => "untyped int".toList
  | .UntypedRune => "untyped rune".toList | .UntypedFloat => "untyped float".toList
  | .UntypedComplex => "untyped complex".toList | .UntypedString => "untyped string".toList
  | .UntypedNil => "untyped nil".toList | .Byte => "byte".toList | .Rune => "rune".toList

/-- The types of `go/types`. `Named` (a declared type, without type arguments) keeps the
path of the package of its type name (empty for a type of the universe), its name and its
underlying type; `Struct` and `Other` (a signature, tuple, interface or channel) keep the
text that `String` prints for them. -/
inductive GoType where
  | Basic (kind : BasicKind)
  | Array (len : Int) (elem : GoType)
  | Slice (elem : GoType)
  | Pointer (elem : GoType)
  | Map (key elem : GoType)
  | Named (pkgPath name : Str) (underlying : GoType)
  | Struct (text : Str)
  | Other (text : Str)
  deriving DecidableEq, Repr

/-- Go's `types.Type.String` (`types.TypeString` without a qualifier). -/
def GoType.String : GoType → Str
  | .Basic k => k.Name
  | .Array len elem => "[".toList ++ Sprintf_d len ++ "]".toList ++ elem.String
  | .Slice elem => "[]".toList ++ elem.String
  | .Pointer elem => "*".toList ++ elem.String
  | .Map key elem => "map[".toList ++ key.String ++ "]".toList ++ elem.String
  | .Named pkgPath name _ => if pkgPath ≠ [] then pkgPath ++ ".".toList ++ name else name
  | .Struct text => text
  | .Other text => text

/-! ## The generator -/

def GENFLAG_NEWLINE : Nat := 1
def GENFLAG_SEMICOLON : Nat := 2

/-- Table `FuncNames`. -/
def FuncNames (name : Str) : Option Str :=
  if name = "len".toList then some "sizeof".toList
  else if name = "main".toList then some "OnPluginStart".toList
  else none

/-- Table `IdenNames`. -/
def IdenNames (name : Str) : Option Str :=
  if name = "nil".toList then some "null".toList else none

/-- Function `WriteTabStr`: the loop appends one tab per round. -/
def WriteTabStr : Nat → Str
  | 0 => []
  | count + 1 => WriteTabStr count ++ "\t".toList

/-- Struct `TypeString`. -/
structure TypeString where
  TypeName : Str := []
  LhsBracks : Str := []
  Name : Str := []
  RhsBracks : Str := []
  deriving DecidableEq, Repr

/-- Method `TypeString.Join`; `total` is the builder. -/
def TypeString.Join (ts : TypeString) (param is_ref is_array : Bool) : Str :=
  let total : Str := []
  let total := if param && is_array && !is_ref then total ++ "const ".toList else total
  let total := total ++ ts.TypeName
  let total :=
    if is_array then total ++ ts.LhsBracks
    else if is_ref then total ++ "&".toList
    else total
  let total := if ts.Name.length > 0 then total ++ (" ".toList ++ ts.Name) else total
  let total := if is_array then total ++ ts.RhsBracks else total
  total

/-- A call `ASTMod.PrintSrcGoErr(node.Pos(), msg)` of the diagnostic reporter: the node whose
position is passed, and the message. -/
structure SrcGoErr where
  node : Expr
  msg : Str
  deriving Repr

/-- The variables of `GetTypeString` that the `recheck` loop updates, and the calls of the
reporter made so far. -/
structure TypeState where
  ts : TypeString
  is_ref : Bool
  is_array : Bool
  errs : List SrcGoErr

/-- The first half of a round of the `recheck` loop: the value of the variable `type_name`
and the value assigned to `ts.TypeName`. -/
def typeNameOf (Letter : Char → Bool) (original : Str) : Str × Str :=
  let type_name := Replace original "untyped ".toList []
  if HasPrefix type_name "func(".toList then (type_name, "Function".toList)
  else if type_name = "invalid type".toList then (type_name, "any".toList)
  else
    let type_name := TrimFunc type_name (fun r => !IsLetter Letter r)
    (type_name, type_name)

/-- The loop `recheck:` ... `goto recheck` of `GetTypeString`, one round per call. -/
def recheck (Letter : Char → Bool) (expr : Expr) (param : Bool) :
    GoType → TypeState → TypeState
  | .Array len elem, st =>
    let tn := typeNameOf Letter (GoType.Array len elem).String
    let st := { st with ts := { st.ts with TypeName := tn.2 } }
    let st := { st with
      ts := { st.ts with RhsBracks := st.ts.RhsBracks ++ ("[".toList ++ Sprintf_d len ++ "]".toList) }
      is_array := true }
    recheck Letter expr param elem st
  | .Named pkgPath name underlying, st =>
    let tn := typeNameOf Letter (GoType.Named pkgPath name underlying).String
    let st := { st with ts := { st.ts with TypeName := tn.2 } }
    match underlying with
    | .Struct _ => { st with is_array := true }
    | _ => st
  | .Map key elem, st =>
    let tn := typeNameOf Letter (GoType.Map key elem).String
    let st := { st with ts := { st.ts with TypeName := tn.2 } }
    { st with ts := { st.ts with TypeName := "StringMap".toList } }
  | .Slice elem, st =>
    let tn := typeNameOf Letter (GoType.Slice elem).String
    let st := { st with ts := { st.ts with TypeName := tn.2 } }
    let st :=
      if param then { st with ts := { st.ts with LhsBracks := st.ts.LhsBracks ++ "[]".toList } }
      else { st with ts := { st.ts with RhsBracks := st.ts.RhsBracks ++ "[]".toList } }
    recheck Letter expr param elem { st with is_array := true }
  | .Pointer elem, st =>
    let tn := typeNameOf Letter (GoType.Pointer elem).String
    let st := { st with ts := { st.ts with TypeName := tn.2 } }
    let st :=
      if !st.is_ref then { st with is_ref := true }
      else { st with errs := st.errs ++ [⟨expr, "Multi-Pointers are Illegal.".toList⟩] }
    recheck Letter expr param elem st
  | .Basic kind, st =>
    let tn := typeNameOf Letter (GoType.Basic kind).String
    let st := { st with ts := { st.ts with TypeName := tn.2 } }
    if tn.1 = "string".toList then
      let st := { st with ts := { st.ts with TypeName := "char".toList } }
      let st :=
        if param then { st with ts := { st.ts with LhsBracks := st.ts.LhsBracks ++ "[]".toList } }
        else { st with ts := { st.ts with RhsBracks := st.ts.RhsBracks ++ "[]".toList } }
      { st with is_array := true }
    else st
  | .Struct text, st =>
    let tn := typeNameOf Letter (GoType.Struct text).String
    { st with ts := { st.ts with TypeName := tn.2 } }
  | .Other text, st =>
    let tn := typeNameOf Letter (GoType.Other text).String
    { st with ts := { st.ts with TypeName := tn.2 } }

/-- Function `GetTypeString`, on the type `typ` that `ASTMod.ASTCtxt.TypeInfo.TypeOf(expr)`
returns (`none` for nil): the state when the `if typ != nil` block is left. -/
def GetTypeState (Letter : Char → Bool) (typ : Option GoType) (expr : Expr) (name : Str)
    (param : Bool) : TypeState :=
  let st : TypeState := ⟨{ Name := name }, false, false, []⟩
  match typ with
  | some typ => recheck Letter expr param typ st
  | none => st

/-- Function `GetTypeString` on the type of `expr`: the returned string and the calls of the
reporter. -/
def GetTypeStringOf (Letter : Char → Bool) (typ : Option GoType) (expr : Expr) (name : Str)
    (param : Bool) : Str × List SrcGoErr :=
  let st := GetTypeState Letter typ expr name param
  (st.ts.Join param st.is_ref st.is_array, st.errs)

/-! ## Statements and declarations of `go/ast` -/

/-- Node `ast.ValueSpec`; a nil `Type` is `none`, a nil `Values` is the empty list. -/
structure ValueSpec where
  Names : List Ident
  Typ : Option Expr
  Values : List Expr
  deriving Repr

/-- The `ast.Spec` nodes. -/
inductive Spec where
  | ValueSpec (spec : ValueSpec)
  | TypeSpec (Name : Ident) (Typ : Expr)
  | ImportSpec (Path : Str)
  deriving Repr

/-- The `ast.Decl` nodes that a declaration statement can hold. -/
inductive Decl where
  | GenDecl (Tok : Token) (Specs : List Spec)
  | BadDecl
  deriving Repr

/-- The statement nodes of `go/ast`. A `Body` is the `List` of the node's `*ast.BlockStmt`,
which the parser never leaves nil. -/
inductive Stmt where
  | BlockStmt (list : List Stmt)
  | AssignStmt (Lhs : List Expr) (Tok : Token) (Rhs : List Expr)
  | ExprStmt (X : Expr)
  | IncDecStmt (X : Expr) (Tok : Token)
  | ReturnStmt (Results : List Expr)
  | DeclStmt (decl : Decl)
  | ForStmt (Init : Option Stmt) (Cond : Option Expr) (Post : Option Stmt) (Body : List Stmt)
  | IfStmt (Init : Option Stmt) (Cond : Expr) (Body : List Stmt) (Else : Option Stmt)
  | BranchStmt (Tok : Token) (Label : Option Ident)
  | RangeStmt (Key Value : Option Expr) (Tok : Token) (X : Expr) (Body : List Stmt)
  | SwitchStmt (Init : Option Stmt) (Tag : Option Expr) (Body : List Stmt)
  | CaseClause (list : List Expr) (Body : List Stmt)
  | EmptyStmt
  | CommClause (Comm : Option Stmt) (Body : List Stmt)
  | DeferStmt (Call : Expr)
  | TypeSwitchStmt (Init : Option Stmt) (Assign : Stmt) (Body : List Stmt)
  | LabeledStmt (Label : Ident) (stmt : Stmt)
  | GoStmt (Call : Expr)
  | SelectStmt (Body : List Stmt)
  | SendStmt (Chan Value : Expr)
  | BadStmt
  deriving Repr

/-- The collaborators of package `ASTMod` and of `unicode` that the generator reads:
`ASTMod.ASTCtxt.TypeInfo.TypeOf`, `ASTMod.PrettyPrintAST` and the range table
`unicode.Letter`. -/
structure ASTMod where
  TypeOf : Expr → Option GoType
  PrettyPrintAST : Stmt → Str
  Letter : Char → Bool

/-- Function `GetTypeString`: the returned string and the calls of the reporter. -/
def GetTypeString (env : ASTMod) (expr : Expr) (name : Str) (param : Bool) :
    Str × List SrcGoErr :=
  GetTypeStringOf env.Letter (env.TypeOf expr) expr name param

/-- Case `*ast.Ident` of `GetExprString`. -/
def GetIdentString (x : Ident) : Str :=
  match IdenNames x.Name with
  | some n => n
  | none => x.Name

mutual
/-- Function `GetExprString`. -/
def GetExprString : Expr → Str
  | .IndexExpr X Index => GetExprString X ++ "[".toList ++ GetExprString Index ++ "]".toList
  | .KeyValueExpr Key Value => GetExprString Key ++ " = ".toList ++ GetExprString Value
  | .ParenExpr X => "(".toList ++ GetExprString X ++ ")".toList
  | .StarExpr X => GetExprString X
  | .UnaryExpr Op X =>
    if Op = Token.AND then GetExprString X
    else if Op = Token.XOR then "~".toList ++ GetExprString X
    else Op.String ++ GetExprString X
  | .CallExpr Fun Args =>
    let call : Str := []
    let name := GetExprString Fun
    let name := match FuncNames name with
      | some n => n
      | none => name
    let call := call ++ (name ++ "(".toList)
    let call := call ++ GetCallArgs Args.length 0 Args
    call ++ ")".toList
  | .BinaryExpr X Op Y =>
    GetExprString X ++ " ".toList ++ Op.String ++ " ".toList ++ GetExprString Y
  | .SelectorExpr X Sel => GetExprString X ++ ".".toList ++ GetIdentString Sel
  | .Ident x => GetIdentString x
  | .BasicLit _ _ Value => Value
  | .TypeAssertExpr _ _ => []
  | .SliceExpr _ _ _ _ => []
  | .CompositeLit _ _ => []
  | .StructType _ => []
  | .FuncType _ _ => []
  | .Other _ => []
/-- The loop over `x.Args` in case `*ast.CallExpr` of `GetExprString`: what it writes from
index `i` on, `len` being `len(x.Args)`. -/
def GetCallArgs (len : Nat) : Nat → List Expr → Str
  | _, [] => []
  | i, arg :: rest =>
    GetExprString arg ++ (if i + 1 ≠ len then ", ".toList else []) ++ GetCallArgs len (i + 1) rest
end

/-- The call `GetExprString(e)` for an `e` that may be the nil interface: no case of the
type switch matches nil. -/
def GetExprStringNil : Option Expr → Str
  | some e => GetExprString e
  | none => []

/-- The loop over `val.Elts` of `MakeVarSpec`, from index `n` on: the text written. -/
def VarSpecElts (tabstrone : Str) (len : Nat) : Nat → List Expr → Str
  | _, [] => []
  | n, expr :: rest =>
    (tabstrone ++ GetExprString expr) ++ (if n + 1 ≠ len then ",".toList else []) ++
      "\n".toList ++ VarSpecElts tabstrone len (n + 1) rest

/-- A string builder together with the log of the reporter. -/
structure Out where
  str : Str
  errs : List SrcGoErr

/-- Method `WriteString` of the builder. -/
def Out.WriteString (o : Out) (s : Str) : Out := { o with str := o.str ++ s }

/-- The write `WriteString(pre + GetTypeString(expr, name, false) + post)`, logging what
`GetTypeString` reports. -/
def Out.WriteType (o : Out) (env : ASTMod) (pre : Str) (expr : Expr) (name : Str) : Out :=
  let r := GetTypeString env expr name false
  { str := o.str ++ (pre ++ r.1), errs := o.errs ++ r.2 }

/-- The loop over `var_spec.Names` of `MakeVarSpec` when `var_spec.Type != nil`, from index
`i` on. -/
def VarSpecTyped (env : ASTMod) (typ : Expr) (Values : List Expr) (tabstr tabstrone : Str) :
    Nat → List Ident → Out → Out
  | _, [], o => o
  | i, name :: rest, o =>
    let o := o.WriteType env tabstr typ name.Name
    let o :=
      if Values.isEmpty = false ∧ i < Values.length then
        match Values.get? i with
        | some (.CompositeLit _ Elts) =>
          let o := o.WriteString " = \x7b".toList
          let o := o.WriteString (VarSpecElts tabstrone Elts.length 0 Elts)
          o.WriteString (tabstr ++ "\x7d".toList)
        | some value => o.WriteString (" = ".toList ++ GetExprString value)
        | none => o
      else o
    VarSpecTyped env typ Values tabstr tabstrone (i + 1) rest (o.WriteString ";\n".toList)

/-- The loop over `var_spec.Values` of `MakeVarSpec` when `var_spec.Type == nil`, for the
name `name`. -/
def VarSpecValues (env : ASTMod) (name : Ident) (tabstr tabstrone : Str) :
    List Expr → Out → Out
  | [], o => o
  | value :: rest, o =>
    let o := o.WriteType env tabstr value name.Name
    let o :=
      match value with
      | .CompositeLit _ Elts =>
        let o := o.WriteString " = \x7b\n".toList
        let o := o.WriteString (VarSpecElts tabstrone Elts.length 0 Elts)
        o.WriteString (tabstr ++ "\x7d".toList)
      | _ => o.WriteString (" = ".toList ++ GetExprString value)
    VarSpecValues env name tabstr tabstrone rest o

/-- The loop over `var_spec.Names` of `MakeVarSpec` when `var_spec.Type == nil`. -/
def VarSpecUntyped (env : ASTMod) (Values : List Expr) (tabstr tabstrone : Str) :
    List Ident → Out → Out
  | [], o => o
  | name :: rest, o =>
    let o := VarSpecValues env name tabstr tabstrone Values o
    VarSpecUntyped env Values tabstr tabstrone rest (o.WriteString ";\n".toList)

/-- Function `MakeVarSpec`: the returned string and the calls of the reporter, appended to
the log `errs`. -/
def MakeVarSpec (env : ASTMod) (var_spec : ValueSpec) (tabs : Nat) (errs : List SrcGoErr) :
    Out :=
  let tabstrone := WriteTabStr ((tabs + 1) % 2 ^ 64)
  let tabstr := WriteTabStr tabs
  let var_str : Out := ⟨[], errs⟩
  match var_spec.Typ with
  | some typ => VarSpecTyped env typ var_spec.Values tabstr tabstrone 0 var_spec.Names var_str
  | none => VarSpecUntyped env var_spec.Values tabstr tabstrone var_spec.Names var_str

/-- Struct `FuncBlock`; `Body` is the text written to the builder so far, `Tabs` a `uint`. -/
structure FuncBlock where
  Body : Str := []
  Tabs : Nat := 0
  Params : List Str := []
  Storage : Str := []
  RetType : Str := []
  Name : Str := []
  deriving DecidableEq, Repr

/-- The state of the statement emitter: the receiver `cb` and the log of the reporter. -/
structure Emit where
  cb : FuncBlock
  errs : List SrcGoErr

/-- The call `cb.Body.WriteString(s)`. -/
def Emit.WriteString (g : Emit) (s : Str) : Emit :=
  { g with cb := { g.cb with Body := g.cb.Body ++ s } }

/-- The assignment `cb.Tabs = t`. -/
def Emit.SetTabs (g : Emit) (t : Nat) : Emit :=
  { g with cb := { g.cb with Tabs := t } }

/-- The start of `MakeStmt`: `if flags & GENFLAG_NEWLINE > 0 { cb.Body.WriteString("\n") }`. -/
def Emit.Newline (g : Emit) (flags : Nat) : Emit :=
  if flags &&& GENFLAG_NEWLINE > 0 then g.WriteString "\n".toList else g

/-- The end of `MakeStmt`: `if flags & GENFLAG_SEMICOLON > 0 { cb.Body.WriteString(";") }`. -/
def Emit.Semicolon (g : Emit) (flags : Nat) : Emit :=
  if flags &&& GENFLAG_SEMICOLON > 0 then g.WriteString ";".toList else g

/-- The loop of case `*ast.AssignStmt` for `n.Tok == token.DEFINE`, from index `i` on. A
left-hand side that is no identifier and an index `i` outside `n.Rhs` panic. -/
def AssignDefine (env : ASTMod) (tabstr : Str) (flags left_len : Nat) (Rhs : List Expr) :
    Nat → List Expr → Emit → Option Emit
  | _, [], g => some g
  | i, e :: rest, g =>
    match e with
    | .Ident var_name =>
      let ty := GetTypeString env e var_name.Name false
      match Rhs.get? i with
      | none => none
      | some rhs =>
        let g : Emit := { g with errs := g.errs ++ ty.2 }
        let g := g.WriteString (tabstr ++ ty.1 ++ " = ".toList ++ GetExprString rhs)
        let g := if flags &&& GENFLAG_SEMICOLON > 0 then g.WriteString ";".toList else g
        let g :=
          if i + 1 ≠ left_len then
            if flags &&& GENFLAG_NEWLINE > 0 then g.WriteString "\n".toList else g
          else g
        AssignDefine env tabstr flags left_len Rhs (i + 1) rest g
    | _ => none

/-- The loop of case `*ast.AssignStmt` for `left_len == rite_len`, from index `i` on. -/
def AssignPairs (tabstr : Str) (flags left_len : Nat) (Tok : Token) (Rhs : List Expr) :
    Nat → List Expr → Emit → Option Emit
  | _, [], g => some g
  | i, lhs :: rest, g =>
    match Rhs.get? i with
    | none => none
    | some rhs =>
      let g := g.WriteString
        (tabstr ++ GetExprString lhs ++ " ".toList ++ Tok.String ++ " ".toList ++ GetExprString rhs)
      let g := if flags &&& GENFLAG_SEMICOLON > 0 then g.WriteString ";".toList else g
      let g := if i + 1 ≠ left_len then g.WriteString "\n".toList else g
      AssignPairs tabstr flags left_len Tok Rhs (i + 1) rest g

/-- The loop of case `*ast.AssignStmt` for `rite_len == 1`, from index `i` on; `rhs` is
`n.Rhs[0]`. -/
def AssignBroadcast (tabstr : Str) (flags left_len : Nat) (Tok : Token) (rhs : Expr) :
    Nat → List Expr → Emit → Emit
  | _, [], g => g
  | i, lhs :: rest, g =>
    let g := g.WriteString
      (tabstr ++ GetExprString lhs ++ " ".toList ++ Tok.String ++ " ".toList ++ GetExprString rhs)
    let g := if flags &&& GENFLAG_SEMICOLON > 0 then g.WriteString ";".toList else g
    let g := if i + 1 ≠ left_len then g.WriteString "\n".toList else g
    AssignBroadcast tabstr flags left_len Tok rhs (i + 1) rest g

/-- The loop over `gd.Specs` in case `*ast.DeclStmt`; a spec that is no `*ast.ValueSpec`
panics. -/
def DeclVarSpecs (env : ASTMod) : List Spec → Emit → Option Emit
  | [], g => some g
  | spec :: rest, g =>
    match spec with
    | .ValueSpec var_spec =>
      let o := MakeVarSpec env var_spec g.cb.Tabs g.errs
      let g : Emit := { g with errs := o.errs }
      DeclVarSpecs env rest (g.WriteString o.str)
    | _ => none

/-- The loop over `case_.List` in the switch without tag, from index `n` on: the text
written. -/
def CaseConds (conds : Nat) : Nat → List Expr → Str
  | _, [] => []
  | n, expr :: rest =>
    ("(".toList ++ GetExprString expr ++ ")".toList) ++
      (if n + 1 ≠ conds then " || ".toList else []) ++ CaseConds conds (n + 1) rest

/-- The loop over `n.List` in case `*ast.CaseClause`, from index `i` on: the text written. -/
def CaseValues (cases : Nat) : Nat → List Expr → Str
  | _, [] => []
  | i, expr :: rest =>
    GetExprString expr ++ (if i + 1 ≠ cases then ", ".toList else []) ++
      CaseValues cases (i + 1) rest

/-- The type assertion `stmt.(*ast.CaseClause)` succeeds. -/
def Stmt.isCaseClause : Stmt → Bool
  | .CaseClause _ _ => true
  | _ => false

mutual
/-- Method `FuncBlock.MakeStmts`; the loop `for _, stmt := range stmts` is `MakeStmtsLoop`,
written here with its first round unfolded. `cb.Tabs++` and `cb.Tabs--` wrap at `2 ^ 64`. -/
def MakeStmts (env : ASTMod) (g : Emit) (stmts : List Stmt) (flags : Nat) : Option Emit := do
  let tabstr := WriteTabStr g.cb.Tabs
  let g := g.WriteString ("\n".toList ++ tabstr ++ "\x7b".toList)
  let g := g.SetTabs ((g.cb.Tabs + 1) % 2 ^ 64)
  let g ←
    match stmts with
    | [] => some g
    | stmt :: rest => do
      let g ← MakeStmt env g stmt flags
      MakeStmtsLoop env g rest flags
  let g := g.SetTabs ((g.cb.Tabs + (2 ^ 64 - 1)) % 2 ^ 64)
  some (g.WriteString ("\n".toList ++ tabstr ++ "\x7d".toList))
/-- The loop `for _, stmt := range stmts` of `MakeStmts`. -/
def MakeStmtsLoop (env : ASTMod) (g : Emit) (stmts : List Stmt) (flags : Nat) : Option Emit :=
  match stmts with
  | [] => some g
  | stmt :: rest => do
    let g ← MakeStmt env g stmt flags
    MakeStmtsLoop env g rest flags
/-- Method `FuncBlock.MakeStmt`. -/
def MakeStmt (env : ASTMod) (g : Emit) (stmt : Stmt) (flags : Nat) : Option Emit :=
  let g := g.Newline flags
  let tabstr := WriteTabStr g.cb.Tabs
  match stmt with
  | .BlockStmt list => do
    let g ← MakeStmts env g list flags
    some (g.Semicolon flags)
  | .AssignStmt Lhs Tok Rhs =>
    let left_len := Lhs.length
    let rite_len := Rhs.length
    if Tok = Token.DEFINE then AssignDefine env tabstr flags left_len Rhs 0 Lhs g
    else if left_len = rite_len then AssignPairs tabstr flags left_len Tok Rhs 0 Lhs g
    else
      match Rhs with
      | [rhs] => some (AssignBroadcast tabstr flags left_len Tok rhs 0 Lhs g)
      | _ => some g
  | .ExprStmt X =>
    let plain := some ((g.WriteString (tabstr ++ GetExprString X)).Semicolon flags)
    match X with
    | .CallExpr Fun Args =>
      if GetExprString Fun = "__sp__".toList then
        match Args with
        | [] => plain
        | .BasicLit _ _ code_value :: _ =>
          if code_value.length < 2 then none
          else some (g.WriteString
            (tabstr ++ (code_value.drop 1).take (code_value.length - 2)))
        | _ :: _ => none
      else plain
    | _ => plain
  | .IncDecStmt X Tok =>
    some ((g.WriteString (tabstr ++ GetExprString X ++ Tok.String)).Semicolon flags)
  | .ReturnStmt Results =>
    let g := g.WriteString (tabstr ++ "return".toList)
    let g :=
      match Results with
      | [] => g
      | result :: _ => g.WriteString (" ".toList ++ GetExprString result)
    some (g.Semicolon flags)
  | .DeclStmt decl =>
    match decl with
    | .GenDecl Tok Specs => if Tok = Token.VAR then DeclVarSpecs env Specs g else some g
    | .BadDecl => none
  | .ForStmt Init Cond Post Body => do
    let g := g.WriteString (tabstr ++ "for (".toList)
    let g ←
      match Init with
      | some init => do
        let old := g.cb.Tabs
        let g ← MakeStmt env (g.SetTabs 0) init 0
        some (g.SetTabs old)
      | none => some g
    let g := g.WriteString ";".toList
    let g :=
      match Cond with
      | some cond => (g.WriteString " ".toList).WriteString (GetExprString cond)
      | none => g
    let g := g.WriteString ";".toList
    let g ←
      match Post with
      | some post => do
        let g := g.WriteString " ".toList
        let old := g.cb.Tabs
        let g ← MakeStmt env (g.SetTabs 0) post 0
        some (g.SetTabs old)
      | none => some g
    let g := g.WriteString ")".toList
    MakeStmts env g Body (GENFLAG_NEWLINE ||| GENFLAG_SEMICOLON)
  | .IfStmt _ Cond Body Else => do
    let g := g.WriteString tabstr
    let g := g.WriteString ("if (".toList ++ GetExprString Cond ++ ")".toList)
    let g ← MakeStmts env g Body (GENFLAG_NEWLINE ||| GENFLAG_SEMICOLON)
    MakeIfElse env tabstr g Else
  | .BranchStmt Tok _ => some ((g.WriteString (tabstr ++ Tok.String)).Semicolon flags)
  | .RangeStmt Key _ _ X Body =>
    let key_str := GetExprStringNil Key
    let g := g.WriteString (tabstr ++
      ("for (int ".toList ++ key_str ++ "; ".toList ++ key_str ++ " < sizeof(".toList ++
        GetExprString X ++ "); ".toList ++ key_str ++ "++)".toList))
    MakeStmts env g Body (GENFLAG_NEWLINE ||| GENFLAG_SEMICOLON)
  | .SwitchStmt _ Tag Body =>
    match Tag with
    | some tag =>
      let g := g.WriteString (tabstr ++ "switch (".toList ++ GetExprString tag ++ ")".toList)
      MakeStmts env g Body (GENFLAG_NEWLINE ||| GENFLAG_SEMICOLON)
    | none =>
      if Body.all Stmt.isCaseClause then MakeSwitchCases env tabstr Body.length g 0 Body
      else none
  | .CaseClause list Body =>
    let cases := list.length
    if cases = 0 then
      let g := g.WriteString (tabstr ++ "default:".toList)
      MakeStmts env g Body (GENFLAG_NEWLINE ||| GENFLAG_SEMICOLON)
    else
      let g := g.WriteString (tabstr ++ "case ".toList)
      let g := g.WriteString (CaseValues cases 0 list)
      let g := g.WriteString ":".toList
      MakeStmts env g Body (GENFLAG_NEWLINE ||| GENFLAG_SEMICOLON)
  | .EmptyStmt | .CommClause _ _ | .DeferStmt _ | .TypeSwitchStmt _ _ _ | .LabeledStmt _ _
  | .GoStmt _ | .SelectStmt _ | .SendStmt _ _ =>
    some ((g.WriteString
      (tabstr ++ "/// illegal operation: ".toList ++ env.PrettyPrintAST stmt)).Semicolon flags)
  | .BadStmt => some (g.Semicolon flags)
/-- The part of case `*ast.IfStmt` after the body of `if_stmt`: `if if_stmt.Else != nil`
... `return`, with the jump `goto re_if` for an else branch that is an if statement. An else
branch that is neither an if statement nor a block panics. -/
def MakeIfElse (env : ASTMod) (tabstr : Str) (g : Emit) (Else : Option Stmt) : Option Emit :=
  match Else with
  | none => some g
  | some s =>
    let g := g.WriteString ("\n".toList ++ tabstr ++ "else ".toList)
    match s with
    | .IfStmt _ Cond Body Else => do
      let g := g.WriteString ("if (".toList ++ GetExprString Cond ++ ")".toList)
      let g ← MakeStmts env g Body (GENFLAG_NEWLINE ||| GENFLAG_SEMICOLON)
      MakeIfElse env tabstr g Else
    | .BlockStmt list => MakeStmts env g list GENFLAG_NEWLINE
    | _ => none
/-- The loop `for i, case_ := range case_list` of the switch without tag, from index `i`
on; `cases` is `len(case_list)`. -/
def MakeSwitchCases (env : ASTMod) (tabstr : Str) (cases : Nat) (g : Emit) (i : Nat)
    (case_list : List Stmt) : Option Emit :=
  match case_list with
  | [] => some g
  | case_ :: rest =>
    match case_ with
    | .CaseClause list Body => do
      let g :=
        if i = 0 then g.WriteString (tabstr ++ "if (".toList)
        else if i + 1 ≠ cases then g.WriteString (tabstr ++ "else if (".toList)
        else g.WriteString (tabstr ++ "else".toList)
      let put_rite_paren : Bool := i = 0 || i + 1 ≠ cases
      let conds := list.length
      let g :=
        if conds = 0 ∧ i = 0 then g.WriteString "true".toList
        else g.WriteString (CaseConds conds 0 list)
      let g := if put_rite_paren then g.WriteString ")".toList else g
      let g ← MakeStmts env g Body (GENFLAG_NEWLINE ||| GENFLAG_SEMICOLON)
      let g := if i + 1 ≠ cases then g.WriteString "\n".toList else g
      MakeSwitchCases env tabstr cases g (i + 1) rest
    | _ => none
end

/-! ## The claims in the words of the specification, and sample inputs -/

/-- Go's `strings.Contains`. -/
def Contains : Str → Str → Bool
  | [], substr => substr.isEmpty
  | c :: s, substr => HasPrefix (c :: s) substr || Contains s substr

/-- The label of a case clause of a switch with a tag: "default:" for a clause without
values, else "case " with the rendered values joined by ", " and a colon. -/
def CaseLabel (list : List Expr) : Str :=
  if list.isEmpty then "default:".toList
  else "case ".toList ++ (", ".toList).intercalate (list.map GetExprString) ++ ":".toList

/-- The case clauses of a switch with a tag: per clause, in source order, a new line with
the label of the clause at the indent, followed by the body of the clause as a brace block. -/
def EmitClauses (env : ASTMod) : List (List Expr × List Stmt) → Emit → Option Emit
  | [], g => some g
  | c :: rest, g =>
    (MakeStmts env (g.WriteString ("\n".toList ++ WriteTabStr g.cb.Tabs ++ CaseLabel c.1)) c.2
      (GENFLAG_NEWLINE ||| GENFLAG_SEMICOLON)).bind (EmitClauses env rest)

/-- The conditions of a clause of a switch without tag, each in parentheses, joined by
" || ". -/
def OrJoin (list : List Expr) : Str :=
  (" || ".toList).intercalate
    (list.map (fun expr => "(".toList ++ GetExprString expr ++ ")".toList))

/-- The guard of clause `i` of `cases` clauses of a switch without tag: "if (...)" for the
first clause, with "true" for an empty condition list; "else if (...)" for a later clause
that is not the last; "else" for the last of two or more clauses. -/
def SwitchGuard (cases i : Nat) (list : List Expr) : Str :=
  if i = 0 then
    "if (".toList ++ (if list.isEmpty then "true".toList else OrJoin list) ++ ")".toList
  else if i + 1 ≠ cases then "else if (".toList ++ OrJoin list ++ ")".toList
  else "else".toList

/-- The chain a switch without tag is turned into, from clause `i` on: per clause the indent,
the guard and the body as a brace block, and a new line between two clauses. -/
def SwitchChain (env : ASTMod) (tabstr : Str) (cases : Nat) :
    Nat → List (List Expr × List Stmt) → Emit → Option Emit
  | _, [], g => some g
  | i, c :: rest, g =>
    (MakeStmts env (g.WriteString (tabstr ++ SwitchGuard cases i c.1)) c.2
      (GENFLAG_NEWLINE ||| GENFLAG_SEMICOLON)).bind fun g =>
        SwitchChain env tabstr cases (i + 1) rest
          (if i + 1 ≠ cases then g.WriteString "\n".toList else g)

/-- The statement node of a case clause given as the pair of its list and its body. -/
def Stmt.ofClause (c : List Expr × List Stmt) : Stmt := .CaseClause c.1 c.2

/-- A sample range table: no letter above U+00FF. -/
def SampleLetter : Char → Bool := fun _ => false

/-- A sample expression, the identifier `x`. -/
def SampleExpr : Expr := .Ident ⟨1, "x".toList⟩

/-- A sample of the collaborators: no expression has a recorded type. -/
def SampleEnv : ASTMod := ⟨fun _ => none, fun _ => "<stmt>".toList, SampleLetter⟩

/-- A sample state: the function block of a method before its body is generated. -/
def SampleEmit : Emit := ⟨{ Tabs := 1 }, []⟩

/-- The integer literal with the text `s`. -/
def SampleLit (s : String) : Expr := .BasicLit 0 .INT s.toList

/-- The statement `f()`. -/
def SampleCall (f : String) : Stmt := .ExprStmt (.CallExpr (.Ident ⟨0, f.toList⟩) [])

/-- The clauses `case 1, 2: A()`, `case 3: B()` and `default: C()`. -/
def SampleClauses : List (List Expr × List Stmt) :=
  [([SampleLit "1", SampleLit "2"], [SampleCall "A"]), ([SampleLit "3"], [SampleCall "B"]),
    ([], [SampleCall "C"])]

/-- The clauses `case 1, 2: A()` and `case 3: B()`, without a default clause. -/
def SampleClausesNoDefault : List (List Expr × List Stmt) :=
  [([SampleLit "1", SampleLit "2"], [SampleCall "A"]), ([SampleLit "3"], [SampleCall "B"])]

/-! ## Declarations: constants, types, functions and the plugin file -/

/-- Go's `unicode.IsSpace`. -/
def IsSpace (c : Char) : Bool :=
  let v := c.val.toNat
  (9 ≤ v && v ≤ 13) || v == 32 || v == 133 || v == 160 || v == 5760 ||
    (8192 ≤ v && v ≤ 8202) || v == 8232 || v == 8233 || v == 8239 || v == 8287 || v == 12288

/-- Go's `strings.TrimSpace`. -/
def TrimSpace (s : Str) : Str := TrimFunc s IsSpace

/-- Worker of `Count`: `skip` characters of a match are still to be passed over. -/
def CountAux (substr : Str) : Nat → Str → Nat
  | _, [] => 0
  | skip + 1, _ :: s => CountAux substr skip s
  | 0, c :: s =>
    if HasPrefix (c :: s) substr then 1 + CountAux substr (substr.length - 1) s
    else CountAux substr 0 s

/-- Go's `strings.Count(s, substr)` for a non-empty `substr`. -/
def Count (s substr : Str) : Nat := CountAux substr 0 s

/-- Constant `Header`. -/
def Header : Str :=
  ("/**\n * file generated by the GoToSourcePawn Transpiler v1.2b\n" ++
    " * Copyright 2020 (C) Kevin Yonan aka Nergal, Assyrianic.\n" ++
    " * GoToSourcePawn Project is licensed under MIT.\n" ++
    " * link: 'https://github.com/assyrianic/Go2SourcePawn'\n */\n\n").toList

/-- The call `GetTypeString(expr, name, param)` for an `expr` that may be the nil interface:
`TypeOf` has no type for nil. -/
def GetTypeStringNil (env : ASTMod) (expr : Option Expr) (name : Str) (param : Bool) :
    Str × List SrcGoErr :=
  match expr with
  | some e => GetTypeString env e name param
  | none => (({ Name := name } : TypeString).Join param false false, [])

/-- The loop over the names of one field in `WriteParams` and `WriteStructMembs`: the list
built so far and the log of the reporter. -/
def WriteFieldNames (env : ASTMod) (typ : Expr) (param : Bool) :
    List Ident → List Str × List SrcGoErr → List Str × List SrcGoErr
  | [], acc => acc
  | name :: rest, acc =>
    let r := GetTypeString env typ name.Name param
    WriteFieldNames env typ param rest (acc.1 ++ [r.1], acc.2 ++ r.2)

/-- The loop over `flist.List` in `WriteParams` and `WriteStructMembs`. -/
def WriteFields (env : ASTMod) (param : Bool) :
    List (List Ident × Expr) → List Str × List SrcGoErr → List Str × List SrcGoErr
  | [], acc => acc
  | field :: rest, acc => WriteFields env param rest (WriteFieldNames env field.2 param field.1 acc)

/-- Function `WriteParams`, with the log of the reporter. -/
def WriteParams (env : ASTMod) (flist : List (List Ident × Expr)) (errs : List SrcGoErr) :
    List Str × List SrcGoErr :=
  WriteFields env true flist ([], errs)

/-- Function `WriteStructMembs`, with the log of the reporter. -/
def WriteStructMembs (env : ASTMod) (flist : List (List Ident × Expr)) (errs : List SrcGoErr) :
    List Str × List SrcGoErr :=
  WriteFields env false flist ([], errs)

/-- The loop over `val.Elts` of `MakeConstSpec`, from index `n` on: the text written. -/
def ConstSpecElts (tabstrone : Str) (len : Nat) : Nat → List Expr → Str
  | _, [] => []
  | n, expr :: rest =>
    ("\n".toList ++ tabstrone ++ GetExprString expr) ++ (if n + 1 ≠ len then ",".toList else []) ++
      ConstSpecElts tabstrone len (n + 1) rest

/-- The loop over `const_spec.Values` of `MakeConstSpec` when `const_spec.Type != nil`, for
the name `name`. -/
def ConstSpecValues (env : ASTMod) (typ : Expr) (name : Ident) (tabstr tabstrone : Str) :
    List Expr → Out → Out
  | [], o => o
  | value :: rest, o =>
    let o :=
      match value with
      | .CompositeLit _ Elts =>
        let o := o.WriteType env tabstr typ name.Name
        let o := o.WriteString " = \x7b".toList
        let o := o.WriteString (ConstSpecElts tabstrone Elts.length 0 Elts)
        o.WriteString (tabstr ++ "\x7d;".toList)
      | _ =>
        let o := o.WriteType env [] typ name.Name
        o.WriteString (" = ".toList ++ GetExprString value ++ ";".toList)
    ConstSpecValues env typ name tabstr tabstrone rest (o.WriteString "\n".toList)

/-- The loop over `const_spec.Names` of `MakeConstSpec` when `const_spec.Type != nil`. -/
def ConstSpecTyped (env : ASTMod) (typ : Expr) (Values : List Expr) (tabstr tabstrone : Str) :
    List Ident → Out → Out
  | [], o => o
  | name :: rest, o =>
    ConstSpecTyped env typ Values tabstr tabstrone rest
      (ConstSpecValues env typ name tabstr tabstrone Values o)

/-- The loop over `const_spec.Names` of `MakeConstSpec` when `const_spec.Type == nil`, from
index `i` on. An index `i` outside `const_spec.Values` panics. -/
def ConstSpecUntyped (env : ASTMod) (Values : List Expr) (tabstr tabstrone : Str) :
    Nat → List Ident → Out → Option Out
  | _, [], o => some o
  | i, name :: rest, o =>
    match Values.get? i with
    | none => none
    | some value =>
      let o :=
        match value with
        | .CompositeLit Typ Elts =>
          let r := GetTypeStringNil env Typ name.Name false
          let o : Out := { str := o.str ++ (tabstr ++ r.1), errs := o.errs ++ r.2 }
          let o := o.WriteString " = \x7b".toList
          let o := o.WriteString (ConstSpecElts tabstrone Elts.length 0 Elts)
          o.WriteString (tabstr ++ "\x7d;".toList)
        | _ =>
          let o := o.WriteType env [] value name.Name
          o.WriteString (" = ".toList ++ GetExprString value ++ ";".toList)
      ConstSpecUntyped env Values tabstr tabstrone (i + 1) rest (o.WriteString "\n".toList)

/-- Function `MakeConstSpec`: the returned string and the calls of the reporter, appended to
the log `errs`. -/
def MakeConstSpec (env : ASTMod) (const_spec : ValueSpec) (tabs : Nat) (errs : List SrcGoErr) :
    Option Out :=
  let const_str : Out := ⟨[], errs⟩
  let tabstrone := WriteTabStr ((tabs + 1) % 2 ^ 64)
  let tabstr := WriteTabStr tabs
  match const_spec.Typ with
  | some typ =>
    some (ConstSpecTyped env typ const_spec.Values tabstr tabstrone const_spec.Names const_str)
  | none => ConstSpecUntyped env const_spec.Values tabstr tabstrone 0 const_spec.Names const_str

/-- Struct `EStruct`; a nil `Methods` is the empty list. -/
structure EStruct where
  Methods : List FuncBlock := []
  Fields : List Str := []
  deriving DecidableEq, Repr

/-- Struct `SMPlugin`; the map `Structs` is the list of its entries, with one entry per key. -/
structure SMPlugin where
  Includes : List Str := []
  Globals : List Str := []
  Structs : List (Str × EStruct) := []
  Funcs : List FuncBlock := []
  deriving DecidableEq, Repr

/-- The map read `struc, ok := m[key]`. -/
def MapLookup : List (Str × EStruct) → Str → Option EStruct
  | [], _ => none
  | entry :: rest, key => if entry.1 = key then some entry.2 else MapLookup rest key

/-- The map write `m[key] = struc`. -/
def MapStore : List (Str × EStruct) → Str → EStruct → List (Str × EStruct)
  | [], key, struc => [(key, struc)]
  | entry :: rest, key, struc =>
    if entry.1 = key then (key, struc) :: rest else entry :: MapStore rest key struc

/-- The state of the program builder: the receiver `plugin` and the log of the reporter. -/
structure Build where
  plugin : SMPlugin
  errs : List SrcGoErr

/-- The loops that write a parameter list, `for index, param := range params`, from index
`index` on: the text written, with ", " after each parameter but the last. -/
def JoinParams (len : Nat) : Nat → List Str → Str
  | _, [] => []
  | index, param :: rest =>
    param ++ (if index + 1 ≠ len then ", ".toList else []) ++ JoinParams len (index + 1) rest

/-- Method `SMPlugin.MakeTypeSpec`. A result list without a field panics. -/
def MakeTypeSpec (env : ASTMod) (b : Build) (Name : Ident) (Typ : Expr) : Option Build :=
  match Typ with
  | .StructType Fields =>
    let r := WriteStructMembs env Fields b.errs
    some { plugin := { b.plugin with
             Structs := MapStore b.plugin.Structs Name.Name { Fields := r.1 } },
           errs := r.2 }
  | .FuncType Params Results =>
    let func_type : Str := "typedef ".toList ++ Name.Name ++ " = function ".toList
    let res : Option (Str × List SrcGoErr) :=
      match Results with
      | some [] => none
      | some (field :: _) =>
        let r := GetTypeString env field.2 [] false
        let type_str := TrimSpace r.1
        let errs := b.errs ++ r.2
        let errs :=
          if Count type_str "[".toList > 0 then
            errs ++ [⟨.FuncType Params Results,
              "Typedef'd functions are not allowed to return arrays.".toList⟩]
          else errs
        some (func_type ++ type_str, errs)
      | none => some (func_type ++ "void".toList, b.errs)
    match res with
    | none => none
    | some (func_type, errs) =>
      let func_type := func_type ++ " (".toList
      let param_list := WriteParams env Params errs
      let param_count := param_list.1.length
      let func_type := func_type ++ JoinParams param_count 0 param_list.1
      let func_type := func_type ++ ");".toList
      some { plugin := { b.plugin with
               Globals := b.plugin.Globals ++ [func_type ++ "\n".toList] },
             errs := param_list.2 }
  | _ => some b

/-- Node `ast.FuncDecl`: `Params` is `f.Type.Params.List`, `Results` is the list of
`f.Type.Results` (`none` for nil), `Recv` the list of `f.Recv`, `Body` the list of `f.Body`. -/
structure FuncDecl where
  Recv : Option (List (List Ident × Expr))
  Name : Ident
  Params : List (List Ident × Expr)
  Results : Option (List (List Ident × Expr))
  Body : Option (List Stmt)

/-- The first part of `MakeFuncDecl`, up to the generation of the body: the function block
`fn`, and the log of the reporter. (The renaming also overwrites `f.Name.Name` in the syntax
tree, which nothing reads again.) A result list without a field panics. -/
def MakeFuncBlock (env : ASTMod) (f : FuncDecl) (errs : List SrcGoErr) : Option Emit :=
  let fn : FuncBlock := {}
  let ret : Option (Str × List SrcGoErr) :=
    match f.Results with
    | some [] => none
    | some (field :: _) =>
      let r := GetTypeString env field.2 [] false
      some (r.1, errs ++ r.2)
    | none => some ("void".toList, errs)
  match ret with
  | none => none
  | some (RetType, errs) =>
    let fn := { fn with RetType := RetType }
    let Name :=
      match FuncNames f.Name.Name with
      | some replace_name => replace_name
      | none => f.Name.Name
    let fn := { fn with Name := Name }
    let params := WriteParams env f.Params errs
    let fn := { fn with Params := params.1 }
    let fn := { fn with Tabs := if f.Recv.isSome then 1 else 0 }
    match f.Body with
    | some body =>
      MakeStmts env ⟨{ fn with Storage := "public".toList }, params.2⟩ body
        (GENFLAG_NEWLINE ||| GENFLAG_SEMICOLON)
    | none =>
      some (Emit.WriteString ⟨{ fn with Storage := "native".toList }, params.2⟩ ";".toList)

/-- Method `SMPlugin.MakeFuncDecl`. A receiver list without a field panics. -/
def MakeFuncDecl (env : ASTMod) (b : Build) (f : FuncDecl) : Option Build :=
  match MakeFuncBlock env f b.errs with
  | none => none
  | some g =>
    match f.Recv with
    | some [] => none
    | some (field :: _) =>
      let r := GetTypeString env field.2 [] false
      let struct_type := r.1
      match MapLookup b.plugin.Structs struct_type with
      | some struc =>
        let struc := { struc with Methods := struc.Methods ++ [g.cb] }
        some { plugin := { b.plugin with
                 Structs := MapStore b.plugin.Structs struct_type struc },
               errs := g.errs ++ r.2 }
      | none => some { plugin := b.plugin, errs := g.errs ++ r.2 }
    | none =>
      some { plugin := { b.plugin with Funcs := b.plugin.Funcs ++ [g.cb] }, errs := g.errs }

/-- The `ast.Decl` nodes of a file. -/
inductive TopDecl where
  | GenDecl (Tok : Token) (Specs : List Spec)
  | FuncDecl (f : FuncDecl)
  | BadDecl

/-- Node `ast.File`: its declarations. -/
structure File where
  Decls : List TopDecl

mutual
/-- The `*ast.GenDecl` nodes that `ast.Inspect` meets below a statement, in the order of the
walk. (Function literals, which are not modelled, are not entered.) -/
def GenDeclsOfStmt : Stmt → List (Token × List Spec)
  | .BlockStmt list => GenDeclsOfStmts list
  | .DeclStmt decl =>
    match decl with
    | .GenDecl Tok Specs => [(Tok, Specs)]
    | .BadDecl => []
  | .ForStmt Init _ Post Body =>
    GenDeclsOfOpt Init ++ GenDeclsOfOpt Post ++ GenDeclsOfStmts Body
  | .IfStmt Init _ Body Else => GenDeclsOfOpt Init ++ GenDeclsOfStmts Body ++ GenDeclsOfOpt Else
  | .RangeStmt _ _ _ _ Body => GenDeclsOfStmts Body
  | .SwitchStmt Init _ Body => GenDeclsOfOpt Init ++ GenDeclsOfStmts Body
  | .CaseClause _ Body => GenDeclsOfStmts Body
  | .CommClause Comm Body => GenDeclsOfOpt Comm ++ GenDeclsOfStmts Body
  | .TypeSwitchStmt Init Assign Body =>
    GenDeclsOfOpt Init ++ GenDeclsOfStmt Assign ++ GenDeclsOfStmts Body
  | .LabeledStmt _ stmt => GenDeclsOfStmt stmt
  | .SelectStmt Body => GenDeclsOfStmts Body
  | .AssignStmt _ _ _ | .ExprStmt _ | .IncDecStmt _ _ | .ReturnStmt _ | .BranchStmt _ _
  | .EmptyStmt | .DeferStmt _ | .GoStmt _ | .SendStmt _ _ | .BadStmt => []
/-- The walk of `ast.Inspect` over a statement list. -/
def GenDeclsOfStmts : List Stmt → List (Token × List Spec)
  | [] => []
  | stmt :: rest => GenDeclsOfStmt stmt ++ GenDeclsOfStmts rest
/-- The walk of `ast.Inspect` over a statement that may be nil. -/
def GenDeclsOfOpt : Option Stmt → List (Token × List Spec)
  | none => []
  | some stmt => GenDeclsOfStmt stmt
end

/-- The `*ast.GenDecl` nodes that `ast.Inspect(file, ...)` meets, in the order of the walk. -/
def GenDeclsOfFile : List TopDecl → List (Token × List Spec)
  | [] => []
  | decl :: rest =>
    (match decl with
      | .GenDecl Tok Specs => [(Tok, Specs)]
      | .FuncDecl f =>
        match f.Body with
        | some body => GenDeclsOfStmts body
        | none => []
      | .BadDecl => []) ++ GenDeclsOfFile rest

/-- The `Path.Value` of the `*ast.ImportSpec` nodes in a list of specs. -/
def ImportsOfSpecs : List Spec → List Str
  | [] => []
  | spec :: rest =>
    (match spec with
      | .ImportSpec Path => [Path]
      | _ => []) ++ ImportsOfSpecs rest

/-- The `Path.Value` of the `*ast.ImportSpec` nodes that `ast.Inspect(file, ...)` meets, in
the order of the walk. -/
def ImportsOfDecls : List (Token × List Spec) → List Str
  | [] => []
  | decl :: rest => ImportsOfSpecs decl.2 ++ ImportsOfDecls rest

/-- The include directive that the first walk of `GeneratePluginFile` appends for an import
spec with the path literal `Value`. The index `Value[1]` panics for a text of fewer than two
bytes; the text of a literal starts with its (one-byte) opening quote. -/
def MakeInclude (Value : Str) : Option Str :=
  match Value.get? 1 with
  | none => none
  | some c =>
    if c = '.' then some ("#include \"".toList ++ Value.drop 2 ++ "\"".toList)
    else some ("#include <".toList ++ (Value.drop 1).take (Value.length - 2) ++ ">".toList)

/-- The first walk of `GeneratePluginFile`: the includes, in the order of the walk. -/
def ReadImports : List Str → List Str → Option (List Str)
  | [], Includes => some Includes
  | Value :: rest, Includes =>
    match MakeInclude Value with
    | none => none
    | some inc => ReadImports rest (Includes ++ [inc])

/-- The loop over `decl.Specs` for `token.CONST` in the second walk. A spec that is no
`*ast.ValueSpec` panics. -/
def ReadConstSpecs (env : ASTMod) : List Spec → Build → Option Build
  | [], b => some b
  | spec :: rest, b =>
    match spec with
    | .ValueSpec const_spec =>
      match MakeConstSpec env const_spec 0 b.errs with
      | none => none
      | some o =>
        ReadConstSpecs env rest
          { plugin := { b.plugin with Globals := b.plugin.Globals ++ [o.str] }, errs := o.errs }
    | _ => none

/-- The loop over `decl.Specs` for `token.TYPE` in the second walk. A spec that is no
`*ast.TypeSpec` panics. -/
def ReadTypeSpecs (env : ASTMod) : List Spec → Build → Option Build
  | [], b => some b
  | spec :: rest, b =>
    match spec with
    | .TypeSpec Name Typ =>
      match MakeTypeSpec env b Name Typ with
      | none => none
      | some b => ReadTypeSpecs env rest b
    | _ => none

/-- The second walk of `GeneratePluginFile`, over the `*ast.GenDecl` nodes. -/
def ReadGenDecls (env : ASTMod) : List (Token × List Spec) → Build → Option Build
  | [], b => some b
  | decl :: rest, b =>
    if decl.1 = Token.CONST then
      match ReadConstSpecs env decl.2 b with
      | none => none
      | some b =>
        ReadGenDecls env rest
          { b with plugin := { b.plugin with Globals := b.plugin.Globals ++ ["\n".toList] } }
    else if decl.1 = Token.TYPE then
      match ReadTypeSpecs env decl.2 b with
      | none => none
      | some b => ReadGenDecls env rest b
    else ReadGenDecls env rest b

/-- The loop over `decl.Specs` for `token.VAR` in the loop over `file.Decls`. A spec that is
no `*ast.ValueSpec` panics. -/
def ReadVarSpecs (env : ASTMod) : List Spec → Build → Option Build
  | [], b => some b
  | spec :: rest, b =>
    match spec with
    | .ValueSpec var_spec =>
      let o := MakeVarSpec env var_spec 0 b.errs
      ReadVarSpecs env rest
        { plugin := { b.plugin with Globals := b.plugin.Globals ++ [o.str] }, errs := o.errs }
    | _ => none

/-- The loop `for _, d := range file.Decls` of `GeneratePluginFile`. -/
def ReadDecls (env : ASTMod) : List TopDecl → Build → Option Build
  | [], b => some b
  | d :: rest, b =>
    match d with
    | .GenDecl Tok Specs =>
      if Tok = Token.VAR then
        match ReadVarSpecs env Specs b with
        | none => none
        | some b => ReadDecls env rest b
      else ReadDecls env rest b
    | .FuncDecl f =>
      match MakeFuncDecl env b f with
      | none => none
      | some b => ReadDecls env rest b
    | .BadDecl => ReadDecls env rest b

/-- The loop `for _, inc := range plugin.Includes`, and likewise the one over
`plugin.Globals`: each string and a new line. -/
def WriteLines : List Str → Str
  | [] => []
  | line :: rest => (line ++ "\n".toList) ++ WriteLines rest

/-- The loop `for _, field := range struc.Fields`. -/
def WriteStructFields (single_tab : Str) : List Str → Str
  | [] => []
  | field :: rest =>
    ("\n".toList ++ single_tab ++ field ++ ";".toList) ++ WriteStructFields single_tab rest

/-- The loop `for i, method := range struc.Methods`, from index `i` on. -/
def WriteMethods (single_tab : Str) (len : Nat) : Nat → List FuncBlock → Str
  | _, [] => []
  | i, method :: rest =>
    (single_tab ++ method.RetType ++ " ".toList ++ method.Name ++ "(".toList) ++
      JoinParams method.Params.length 0 method.Params ++ (")".toList ++ method.Body) ++
      (if i + 1 ≠ len then "\n".toList else []) ++ WriteMethods single_tab len (i + 1) rest

/-- The loop `for name, struc := range plugin.Structs`, over the entries in the order in
which the range statement visits them. -/
def WriteStructs (single_tab : Str) : List (Str × EStruct) → Str
  | [] => []
  | entry :: rest =>
    ("enum struct ".toList ++ entry.1 ++ " \x7b".toList) ++
      WriteStructFields single_tab entry.2.Fields ++
      (if entry.2.Methods.isEmpty = false then
        "\n\n".toList ++ WriteMethods single_tab entry.2.Methods.length 0 entry.2.Methods
       else []) ++
      "\n\x7d\n\n".toList ++ WriteStructs single_tab rest

/-- The loop `for i, fn := range plugin.Funcs`, from index `i` on. -/
def WriteFuncs (len : Nat) : Nat → List FuncBlock → Str
  | _, [] => []
  | i, fn :: rest =>
    (fn.Storage ++ " ".toList ++ fn.RetType ++ " ".toList ++ fn.Name ++ "(".toList) ++
      JoinParams fn.Params.length 0 fn.Params ++ ")".toList ++ fn.Body ++
      (if i + 1 ≠ len then "\n\n".toList else []) ++ WriteFuncs len (i + 1) rest

/-- The last part of `GeneratePluginFile`, from `var plugin_src_code strings.Builder` on. A
range statement over a Go map visits the entries in an order that the run time chooses anew
for every loop; `iter` is that choice, a reordering of the entries. -/
def WritePlugin (iter : List (Str × EStruct) → List (Str × EStruct)) (plugin : SMPlugin) : Str :=
  Header ++ WriteLines plugin.Includes ++ "\n".toList ++ WriteLines plugin.Globals ++
    WriteStructs (WriteTabStr 1) (iter plugin.Structs) ++
    WriteFuncs plugin.Funcs.length 0 plugin.Funcs

/-- Function `GeneratePluginFile`: the returned text and the log of the reporter; `iter` is
the order in which the range statement over the map `plugin.Structs` visits its entries. -/
def GeneratePluginFile (env : ASTMod) (iter : List (Str × EStruct) → List (Str × EStruct))
    (file : File) : Option (Str × List SrcGoErr) :=
  match ReadImports (ImportsOfDecls (GenDeclsOfFile file.Decls)) [] with
  | none => none
  | some Includes =>
    match ReadGenDecls env (GenDeclsOfFile file.Decls) ⟨{ Includes := Includes }, []⟩ with
    | none => none
    | some b =>
      match ReadDecls env file.Decls b with
      | none => none
      | some b => some (WritePlugin iter b.plugin, b.errs)

/-- A sample struct type, `Vec3`, declared in a package with the empty path. -/
def SampleVec3 : GoType := .Named [] "Vec3".toList (.Struct "struct{x float32}".toList)

/-- A sample of the type information: the identifier `Vec3` has the type `Vec3`, `*Vec3` the
pointer type, `float32` its basic type, every other identifier `int`, and a literal the
untyped integer type. -/
def SampleTypeOf : Expr → Option GoType
  | .Ident id =>
    if id.Name = "Vec3".toList then some SampleVec3
    else if id.Name = "float32".toList then some (.Basic .Float32)
    else some (.Basic .Int)
  | .StarExpr (.Ident id) =>
    if id.Name = "Vec3".toList then some (.Pointer SampleVec3) else none
  | .BasicLit _ _ _ => some (.Basic .UntypedInt)
  | _ => none

/-- A sample of the collaborators, with the type information `SampleTypeOf`. -/
def SampleEnvTyped : ASTMod := ⟨SampleTypeOf, fun _ => "<stmt>".toList, SampleLetter⟩

/-- The identifier node with the name `s`. -/
def SampleIdent (s : String) : Ident := ⟨0, s.toList⟩

/-- The identifier expression with the name `s`. -/
def SampleName (s : String) : Expr := .Ident ⟨0, s.toList⟩

/-- The file `type A struct { x int }; type B struct { y int }`. -/
def SampleTwoStructs : File :=
  ⟨[.GenDecl .TYPE [.TypeSpec (SampleIdent "A") (.StructType [([SampleIdent "x"], SampleName "int")])],
    .GenDecl .TYPE [.TypeSpec (SampleIdent "B") (.StructType [([SampleIdent "y"], SampleName "int")])]]⟩

/-- The state of the builder after `type Vec3 struct { x float32 }` has been registered. -/
def SampleVec3Registered : Option Build :=
  MakeTypeSpec SampleEnvTyped ⟨{}, []⟩ (SampleIdent "Vec3")
    (.StructType [([SampleIdent "x"], SampleName "float32")])

/-- The method `func (v Vec3) Len() int { return 0 }`, or with the receiver `v *Vec3`. -/
def SampleMethod (pointer : Bool) : FuncDecl :=
  { Recv := some [([SampleIdent "v"],
      if pointer then .StarExpr (SampleName "Vec3") else SampleName "Vec3")]
    Name := SampleIdent "Len"
    Params := []
    Results := some [([], SampleName "int")]
    Body := some [.ReturnStmt [SampleLit "0"]] }

/-- The file `const ( A = iota; B )`. -/
def SampleIotaGroup : File :=
  ⟨[.GenDecl .CONST [.ValueSpec ⟨[SampleIdent "A"], none, [SampleName "iota"]⟩,
      .ValueSpec ⟨[SampleIdent "B"], none, []⟩]]⟩

/-- The statement `for i := 0; c; i++ { if c { A() } else { B() } }`. -/
def SampleFor : Stmt :=
  .ForStmt (some (.AssignStmt [SampleName "i"] .DEFINE [SampleLit "0"])) (some (SampleName "c"))
    (some (.IncDecStmt (SampleName "i") .INC))
    [.IfStmt none (SampleName "c") [SampleCall "A"] (some (.BlockStmt [SampleCall "B"]))]

/-- One entry of an assignment with a non-defining operator: the indent, the target, the
operator between two blanks, the value, and a semicolon when `GENFLAG_SEMICOLON` is set. -/
def AssignEntry (tabstr : Str) (flags : Nat) (Tok : Token) (lhs rhs : Expr) : Str :=
  tabstr ++ GetExprString lhs ++ " ".toList ++ Tok.String ++ " ".toList ++ GetExprString rhs ++
    (if flags &&& GENFLAG_SEMICOLON > 0 then ";".toList else [])

/-- A sample state of the builder: the struct `Vec3` is registered under the key "Vec3". -/
def SampleBuildVec3 : Build :=
  ⟨{ Structs := [("Vec3".toList, { Fields := ["float x".toList] })] }, []⟩

/-- The function block that `MakeFuncDecl` builds for `func (v Vec3) Len() int { return 0 }`. -/
def SampleLenBlock : Emit :=
  ⟨{ Body := "\n\t\x7b\n\t\treturn 0;\n\t\x7d".toList, Tabs := 1, Params := [],
     Storage := "public".toList, RetType := "int".toList, Name := "Len".toList }, []⟩

/-! ## Theorems -/

theorem typeNameOf_basic_ne_string (L : Char → Bool) (k : BasicKind)
    (h1 : k ≠ .String) (h2 : k ≠ .UntypedString) :
    (typeNameOf L k.Name).1 ≠ "string".toList := by
  cases k <;> first | exact absurd rfl h1 | exact absurd rfl h2 | exact of_decide_eq_true rfl

theorem recheck_basic (L : Char → Bool) (expr : Expr) (param : Bool) (k : BasicKind)
    (h1 : k ≠ .String) (h2 : k ≠ .UntypedString) (st : TypeState) :
    recheck L expr param (.Basic k) st =
      { st with ts := { st.ts with TypeName := (typeNameOf L k.Name).2 } } := by
  have h := typeNameOf_basic_ne_string L k h1 h2
  simp only [recheck, GoType.String]
  rw [if_neg h]

theorem recheck_TypeName_const (L : Char → Bool) (expr : Expr) (param : Bool) (typ : GoType) :
    ∃ T : Str, ∀ st : TypeState, (recheck L expr param typ st).ts.TypeName = T := by
  induction typ with
  | Basic k =>
    by_cases h : (typeNameOf L (GoType.Basic k).String).1 = "string".toList
    · exact ⟨"char".toList, fun st => by
        simp only [recheck, h, ↓reduceIte]; cases param <;> rfl⟩
    · exact ⟨(typeNameOf L (GoType.Basic k).String).2, fun st => by
        simp only [recheck, h, ↓reduceIte]⟩
  | Array len elem ih => obtain ⟨T, hT⟩ := ih; exact ⟨T, fun st => by simp only [recheck, hT]⟩
  | Slice elem ih => obtain ⟨T, hT⟩ := ih; exact ⟨T, fun st => by simp only [recheck, hT]⟩
  | Pointer elem ih => obtain ⟨T, hT⟩ := ih; exact ⟨T, fun st => by simp only [recheck, hT]⟩
  | Map key elem _ _ => exact ⟨"StringMap".toList, fun st => by simp only [recheck]⟩
  | Named pkg name u _ =>
    exact ⟨(typeNameOf L (GoType.Named pkg name u).String).2, fun st => by
      cases u <;> simp only [recheck]⟩
  | Struct t => exact ⟨(typeNameOf L (GoType.Struct t).String).2, fun st => by simp only [recheck]⟩
  | Other t => exact ⟨(typeNameOf L (GoType.Other t).String).2, fun st => by simp only [recheck]⟩

theorem recheck_RhsBracks_append (L : Char → Bool) (expr : Expr) (param : Bool) (typ : GoType) :
    ∃ R : Str, ∀ st : TypeState,
      (recheck L expr param typ st).ts.RhsBracks = st.ts.RhsBracks ++ R := by
  induction typ with
  | Basic k =>
    by_cases h : (typeNameOf L (GoType.Basic k).String).1 = "string".toList
    · cases param
      · exact ⟨"[]".toList, fun st => by simp only [recheck, h, ↓reduceIte]; simp⟩
      · exact ⟨[], fun st => by simp only [recheck, h, ↓reduceIte]; simp⟩
    · exact ⟨[], fun st => by simp only [recheck, h, ↓reduceIte]; simp⟩
  | Array len elem ih =>
    obtain ⟨R, hR⟩ := ih
    exact ⟨"[".toList ++ Sprintf_d len ++ "]".toList ++ R, fun st => by
      simp only [recheck, hR, List.append_assoc]⟩
  | Slice elem ih =>
    obtain ⟨R, hR⟩ := ih
    cases param
    · exact ⟨"[]".toList ++ R, fun st => by simp [recheck, hR]⟩
    · exact ⟨R, fun st => by simp [recheck, hR]⟩
  | Pointer elem ih =>
    obtain ⟨R, hR⟩ := ih
    exact ⟨R, fun st => by cases h : st.is_ref <;> simp [recheck, hR, h]⟩
  | Map key elem _ _ => exact ⟨[], fun st => by simp [recheck]⟩
  | Named pkg name u _ => exact ⟨[], fun st => by cases u <;> simp [recheck]⟩
  | Struct t => exact ⟨[], fun st => by simp [recheck]⟩
  | Other t => exact ⟨[], fun st => by simp [recheck]⟩

theorem recheck_is_array (L : Char → Bool) (expr : Expr) (param : Bool) (typ : GoType) :
    ∀ st : TypeState, st.is_array = true → (recheck L expr param typ st).is_array = true := by
  induction typ with
  | Basic k =>
    intro st h0
    by_cases h : (typeNameOf L (GoType.Basic k).String).1 = "string".toList <;>
      simp only [recheck, h, ↓reduceIte, h0]
  | Array len elem ih => intro st _; simp only [recheck]; exact ih _ rfl
  | Slice elem ih => intro st _; simp only [recheck]; exact ih _ rfl
  | Pointer elem ih =>
    intro st h0; simp only [recheck]; apply ih
    cases h1 : st.is_ref <;> simp [h0]
  | Map key elem _ _ => intro st h0; simp [recheck, h0]
  | Named pkg name u _ => intro st h0; cases u <;> simp [recheck, h0]
  | Struct t => intro st h0; simp [recheck, h0]
  | Other t => intro st h0; simp [recheck, h0]

theorem recheck_LhsBracks (L : Char → Bool) (expr : Expr) (typ : GoType) :
    ∀ st : TypeState, (recheck L expr false typ st).ts.LhsBracks = st.ts.LhsBracks := by
  induction typ with
  | Basic k =>
    intro st
    by_cases h : (typeNameOf L (GoType.Basic k).String).1 = "string".toList
    · simp only [recheck, h, ↓reduceIte]
      rfl
    · simp only [recheck, h, ↓reduceIte]
  | Array len elem ih => intro st; simp only [recheck]; rw [ih]
  | Slice elem ih => intro st; simp only [recheck]; rw [ih]; simp
  | Pointer elem ih =>
    intro st; simp only [recheck]; rw [ih]
    cases h1 : st.is_ref <;> simp
  | Map key elem _ _ => intro st; simp [recheck]
  | Named pkg name u _ => intro st; cases u <;> simp [recheck]
  | Struct t => intro st; simp [recheck]
  | Other t => intro st; simp [recheck]

theorem recheck_Name (L : Char → Bool) (expr : Expr) (param : Bool) (typ : GoType) :
    ∀ st : TypeState, (recheck L expr param typ st).ts.Name = st.ts.Name := by
  induction typ with
  | Basic k =>
    intro st
    by_cases h : (typeNameOf L (GoType.Basic k).String).1 = "string".toList
    · simp only [recheck, h, ↓reduceIte]
      cases param <;> rfl
    · simp only [recheck, h, ↓reduceIte]
  | Array len elem ih => intro st; simp only [recheck]; rw [ih]
  | Slice elem ih => intro st; cases param <;> simp only [recheck] <;> rw [ih] <;> simp
  | Pointer elem ih =>
    intro st; simp only [recheck]; rw [ih]
    cases h1 : st.is_ref <;> simp
  | Map key elem _ _ => intro st; simp [recheck]
  | Named pkg name u _ => intro st; cases u <;> simp [recheck]
  | Struct t => intro st; simp [recheck]
  | Other t => intro st; simp [recheck]

theorem Join_eq (ts : TypeString) (param is_ref is_array : Bool) :
    ts.Join param is_ref is_array =
      (if param && is_array && !is_ref then "const ".toList else []) ++ ts.TypeName ++
      (if is_array then ts.LhsBracks else if is_ref then "&".toList else []) ++
      (if ts.Name ≠ [] then " ".toList ++ ts.Name else []) ++
      (if is_array then ts.RhsBracks else []) := by
  have hlen : (ts.Name.length > 0) = (ts.Name ≠ []) := by
    cases ts.Name <;> simp
  unfold TypeString.Join
  simp only [hlen]
  cases param <;> cases is_ref <;> cases is_array <;> by_cases hn : ts.Name = [] <;> simp [hn]

/-- C1: `TypeString.Join` returns "const " if `param && is_array && !is_ref`, then the type
name, then `LhsBracks` if `is_array` else "&" if `is_ref`, then " " and the name if the name
is not empty, then `RhsBracks` if `is_array`. With `is_array` and `is_ref` both set no "&" is
written, and without `is_array` no bracket text is written. -/
theorem C1_Join_spec (ts : TypeString) (param is_ref is_array : Bool) :
    ts.Join param is_ref is_array =
        (if param && is_array && !is_ref then "const ".toList else []) ++ ts.TypeName ++
        (if is_array then ts.LhsBracks else if is_ref then "&".toList else []) ++
        (if ts.Name ≠ [] then " ".toList ++ ts.Name else []) ++
        (if is_array then ts.RhsBracks else []) ∧
      ts.Join param true true =
        ts.TypeName ++ ts.LhsBracks ++ (if ts.Name ≠ [] then " ".toList ++ ts.Name else []) ++
          ts.RhsBracks ∧
      ts.Join param is_ref false =
        ts.TypeName ++ (if is_ref then "&".toList else []) ++
          (if ts.Name ≠ [] then " ".toList ++ ts.Name else []) := by
  refine ⟨Join_eq ts param is_ref is_array, ?_, ?_⟩
  · rw [Join_eq]; cases param <;> simp
  · rw [Join_eq]; cases param <;> cases is_ref <;> simp

theorem recheck_Slice (L : Char → Bool) (expr : Expr) (param : Bool) (elem : GoType)
    (st : TypeState) :
    recheck L expr param (.Slice elem) st =
      recheck L expr param elem
        { ts := { TypeName := (typeNameOf L (GoType.Slice elem).String).2
                  LhsBracks := if param then st.ts.LhsBracks ++ "[]".toList else st.ts.LhsBracks
                  Name := st.ts.Name
                  RhsBracks := if param then st.ts.RhsBracks else st.ts.RhsBracks ++ "[]".toList }
          is_ref := st.is_ref, is_array := true, errs := st.errs } := by
  cases param <;> simp [recheck]

theorem recheck_Pointer (L : Char → Bool) (expr : Expr) (param : Bool) (elem : GoType)
    (st : TypeState) :
    recheck L expr param (.Pointer elem) st =
      recheck L expr param elem
        { ts := { st.ts with TypeName := (typeNameOf L (GoType.Pointer elem).String).2 }
          is_ref := true, is_array := st.is_array
          errs := if st.is_ref then
            st.errs ++ [⟨expr, "Multi-Pointers are Illegal.".toList⟩] else st.errs } := by
  cases h : st.is_ref <;> simp [recheck, h]

theorem recheck_string (L : Char → Bool) (expr : Expr) (param : Bool) (st : TypeState) :
    recheck L expr param (.Basic .String) st =
      { ts := { TypeName := "char".toList
                LhsBracks := if param then st.ts.LhsBracks ++ "[]".toList else st.ts.LhsBracks
                Name := st.ts.Name
                RhsBracks := if param then st.ts.RhsBracks else st.ts.RhsBracks ++ "[]".toList }
        is_ref := st.is_ref, is_array := true, errs := st.errs } := by
  have hs : (typeNameOf L (GoType.Basic .String).String).1 = "string".toList := rfl
  simp only [recheck, hs, ↓reduceIte]
  cases param <;> simp

theorem name_part (n : Str) :
    (if n ≠ [] then " ".toList ++ n else []) = (if n = [] then [] else " ".toList ++ n) := by
  by_cases h : n = [] <;> simp [h]

theorem GetTypeStringOf_basic (L : Char → Bool) (expr : Expr) (k : BasicKind) (n : Str)
    (param : Bool) (h1 : k ≠ .String) (h2 : k ≠ .UntypedString) :
    (GetTypeStringOf L (some (.Basic k)) expr n param).1 =
      (typeNameOf L k.Name).2 ++ (if n = [] then [] else " ".toList ++ n) := by
  simp only [GetTypeStringOf, GetTypeState, recheck_basic L expr param k h1 h2, Join_eq,
    name_part]
  simp

/-- C2: for a slice of a basic non-string type, rendered `T` when it stands alone, and for
the string type, `GetTypeString` puts "[]" left of a non-empty name `n` in parameter context
("const T[] n", "const char[] n") and right of it otherwise ("T n[]", "char n[]"). -/
theorem C2_slice_bracket_side (L : Char → Bool) (expr : Expr) (k : BasicKind) (n : Str)
    (h1 : k ≠ .String) (h2 : k ≠ .UntypedString) (hn : n ≠ []) :
    (GetTypeStringOf L (some (.Slice (.Basic k))) expr n true).1 =
        "const ".toList ++ (GetTypeStringOf L (some (.Basic k)) expr [] false).1 ++
          "[] ".toList ++ n ∧
      (GetTypeStringOf L (some (.Slice (.Basic k))) expr n false).1 =
        (GetTypeStringOf L (some (.Basic k)) expr [] false).1 ++ " ".toList ++ n ++
          "[]".toList ∧
      (GetTypeStringOf L (some (.Basic .String)) expr n true).1 =
        "const char[] ".toList ++ n ∧
      (GetTypeStringOf L (some (.Basic .String)) expr n false).1 =
        "char ".toList ++ n ++ "[]".toList := by
  rw [GetTypeStringOf_basic L expr k [] false h1 h2]
  refine ⟨?_, ?_, ?_, ?_⟩
  · simp only [GetTypeStringOf, GetTypeState, recheck_Slice, recheck_basic L expr true k h1 h2,
      Join_eq]
    simp [hn]
  · simp only [GetTypeStringOf, GetTypeState, recheck_Slice, recheck_basic L expr false k h1 h2,
      Join_eq]
    simp [hn]
  · simp only [GetTypeStringOf, GetTypeState, recheck_string, Join_eq]
    simp [hn]
  · simp only [GetTypeStringOf, GetTypeState, recheck_string, Join_eq]
    simp [hn]

/-- C2, witness: the element type `float64` and the name "n". -/
theorem C2_slice_bracket_side_witness :
    (BasicKind.Float64 ≠ BasicKind.String ∧ BasicKind.Float64 ≠ BasicKind.UntypedString ∧
      "n".toList ≠ []) ∧
    ((GetTypeStringOf SampleLetter (some (.Slice (.Basic .Float64))) SampleExpr "n".toList true).1 =
        "const ".toList ++
          (GetTypeStringOf SampleLetter (some (.Basic .Float64)) SampleExpr [] false).1 ++
          "[] ".toList ++ "n".toList ∧
      (GetTypeStringOf SampleLetter (some (.Slice (.Basic .Float64))) SampleExpr "n".toList false).1 =
        (GetTypeStringOf SampleLetter (some (.Basic .Float64)) SampleExpr [] false).1 ++
          " ".toList ++ "n".toList ++ "[]".toList ∧
      (GetTypeStringOf SampleLetter (some (.Basic .String)) SampleExpr "n".toList true).1 =
        "const char[] ".toList ++ "n".toList ∧
      (GetTypeStringOf SampleLetter (some (.Basic .String)) SampleExpr "n".toList false).1 =
        "char ".toList ++ "n".toList ++ "[]".toList) :=
  ⟨⟨by decide, by decide, by decide⟩,
    C2_slice_bracket_side SampleLetter SampleExpr .Float64 "n".toList (by decide) (by decide)
      (by decide)⟩

/-- C3: for an array type of length `len` and element type `E`, `GetTypeString(array, n,
false)` has the type name of the signature of `E` and the right-side bracket text "[len]"
followed by that of `E`; the returned string is the type name, the name and these brackets.
`[4]int` gives "int n[4]" and `[2][3]int` gives "int n[2][3]". -/
theorem C3_array_signature (L : Char → Bool) (expr : Expr) (len : Int) (E : GoType) (n : Str) :
    (GetTypeState L (some (.Array len E)) expr n false).ts.TypeName =
        (GetTypeState L (some E) expr n false).ts.TypeName ∧
      (GetTypeState L (some (.Array len E)) expr n false).ts.RhsBracks =
        "[".toList ++ Sprintf_d len ++ "]".toList ++
          (GetTypeState L (some E) expr n false).ts.RhsBracks ∧
      (GetTypeStringOf L (some (.Array len E)) expr n false).1 =
        (GetTypeState L (some E) expr n false).ts.TypeName ++
          (if n = [] then [] else " ".toList ++ n) ++
          ("[".toList ++ Sprintf_d len ++ "]".toList ++
            (GetTypeState L (some E) expr n false).ts.RhsBracks) ∧
      (GetTypeStringOf L (some (.Array 4 (.Basic .Int))) expr "n".toList false).1 =
        "int n[4]".toList ∧
      (GetTypeStringOf L (some (.Array 2 (.Array 3 (.Basic .Int)))) expr "n".toList false).1 =
        "int n[2][3]".toList := by
  obtain ⟨T, hT⟩ := recheck_TypeName_const L expr false E
  obtain ⟨R, hR⟩ := recheck_RhsBracks_append L expr false E
  have e1 : (GetTypeState L (some (.Array len E)) expr n false).ts.TypeName =
      (GetTypeState L (some E) expr n false).ts.TypeName := by
    simp only [GetTypeState, recheck, hT]
  have e2 : (GetTypeState L (some (.Array len E)) expr n false).ts.RhsBracks =
      "[".toList ++ Sprintf_d len ++ "]".toList ++
        (GetTypeState L (some E) expr n false).ts.RhsBracks := by
    simp only [GetTypeState, recheck, hR]
    simp
  refine ⟨e1, e2, ?_, rfl, rfl⟩
  have e3 : (GetTypeState L (some (.Array len E)) expr n false).is_array = true := by
    simp only [GetTypeState, recheck]
    exact recheck_is_array L expr false E _ rfl
  have e4 : (GetTypeState L (some (.Array len E)) expr n false).ts.LhsBracks = [] := by
    simp only [GetTypeState]
    rw [recheck_LhsBracks]
  have e5 : (GetTypeState L (some (.Array len E)) expr n false).ts.Name = n := by
    simp only [GetTypeState]
    rw [recheck_Name]
  simp only [GetTypeStringOf, Join_eq, e3, e4, e5, name_part]
  rw [e1, e2]
  simp

/-- C4: for the type pointer-to-pointer-to-`T`, `T` basic and not a string type,
`GetTypeString` calls the reporter exactly once, with "Multi-Pointers are Illegal.", and
returns what it returns for pointer-to-`T`: the rendering of `T`, one "&", and the name. -/
theorem C4_double_pointer (L : Char → Bool) (expr : Expr) (k : BasicKind) (n : Str)
    (param : Bool) (h1 : k ≠ .String) (h2 : k ≠ .UntypedString) :
    (GetTypeStringOf L (some (.Pointer (.Pointer (.Basic k)))) expr n param).2 =
        [⟨expr, "Multi-Pointers are Illegal.".toList⟩] ∧
      (GetTypeStringOf L (some (.Pointer (.Pointer (.Basic k)))) expr n param).1 =
        (GetTypeStringOf L (some (.Pointer (.Basic k))) expr n param).1 ∧
      (GetTypeStringOf L (some (.Pointer (.Basic k))) expr n param).2 = [] ∧
      (GetTypeStringOf L (some (.Pointer (.Pointer (.Basic k)))) expr n param).1 =
        (GetTypeStringOf L (some (.Basic k)) expr [] false).1 ++ "&".toList ++
          (if n = [] then [] else " ".toList ++ n) := by
  rw [GetTypeStringOf_basic L expr k [] false h1 h2]
  simp only [GetTypeStringOf, GetTypeState, recheck_Pointer, recheck_basic L expr param k h1 h2,
    Join_eq, name_part]
  cases param <;> simp

/-- C4, witness: the type `**int` and the name "n" in parameter context. -/
theorem C4_double_pointer_witness :
    (BasicKind.Int ≠ BasicKind.String ∧ BasicKind.Int ≠ BasicKind.UntypedString) ∧
    ((GetTypeStringOf SampleLetter (some (.Pointer (.Pointer (.Basic .Int)))) SampleExpr
        "n".toList true).2 = [⟨SampleExpr, "Multi-Pointers are Illegal.".toList⟩] ∧
      (GetTypeStringOf SampleLetter (some (.Pointer (.Pointer (.Basic .Int)))) SampleExpr
        "n".toList true).1 =
        (GetTypeStringOf SampleLetter (some (.Pointer (.Basic .Int))) SampleExpr
          "n".toList true).1 ∧
      (GetTypeStringOf SampleLetter (some (.Pointer (.Basic .Int))) SampleExpr
        "n".toList true).2 = [] ∧
      (GetTypeStringOf SampleLetter (some (.Pointer (.Pointer (.Basic .Int)))) SampleExpr
        "n".toList true).1 =
        (GetTypeStringOf SampleLetter (some (.Basic .Int)) SampleExpr [] false).1 ++
          "&".toList ++ (if "n".toList = [] then [] else " ".toList ++ "n".toList)) :=
  ⟨⟨by decide, by decide⟩,
    C4_double_pointer SampleLetter SampleExpr .Int "n".toList true (by decide) (by decide)⟩

theorem mem_ReplaceAux_nil (old : Str) (c : Char) :
    ∀ (s : Str) (skip : Nat), c ∈ ReplaceAux old [] skip s → c ∈ s := by
  intro s
  induction s with
  | nil => intro skip h; cases skip <;> simp [ReplaceAux] at h
  | cons a s ih =>
    intro skip h
    cases skip with
    | succ k =>
      simp only [ReplaceAux] at h
      exact List.mem_cons_of_mem _ (ih _ h)
    | zero =>
      simp only [ReplaceAux] at h
      split at h
      · simp only [List.nil_append] at h
        exact List.mem_cons_of_mem _ (ih _ h)
      · rcases List.mem_cons.mp h with h | h
        · exact h ▸ List.mem_cons_self _ _
        · exact List.mem_cons_of_mem _ (ih _ h)

theorem mem_TrimFunc (s : Str) (f : Char → Bool) (c : Char) (h : c ∈ TrimFunc s f) : c ∈ s := by
  unfold TrimFunc at h
  rw [List.mem_reverse] at h
  have h1 := (List.dropWhile_suffix f).subset h
  rw [List.mem_reverse] at h1
  exact (List.dropWhile_suffix f).subset h1

theorem mem_typeNameOf (L : Char → Bool) (original : Str) (c : Char)
    (h : c ∈ (typeNameOf L original).2) :
    c ∈ original ∨ c ∈ "Function".toList ∨ c ∈ "any".toList := by
  unfold typeNameOf at h
  simp only at h
  split at h
  · exact Or.inr (Or.inl h)
  · split at h
    · exact Or.inr (Or.inr h)
    · exact Or.inl (mem_ReplaceAux_nil _ c _ _ (mem_TrimFunc _ _ c h))

/-- C5: for a named type whose underlying type is a struct, `GetTypeString(S, n, false)` is
the rendered type name followed by " n", and it holds no '[', no ']' and no '&' (the package
path and the name of the type and the name `n`, being a Go import path and Go identifiers,
hold none). -/
theorem C5_named_struct_field (L : Char → Bool) (expr : Expr) (pkgPath name text n : Str)
    (hn : n ≠ [])
    (hclean : ∀ c ∈ pkgPath ++ name ++ n, c ≠ '[' ∧ c ≠ ']' ∧ c ≠ '&') :
    (GetTypeStringOf L (some (.Named pkgPath name (.Struct text))) expr n false).1 =
        (GetTypeStringOf L (some (.Named pkgPath name (.Struct text))) expr [] false).1 ++
          " ".toList ++ n ∧
      (GetTypeStringOf L (some (.Named pkgPath name (.Struct text))) expr [] false).1 =
        (typeNameOf L (GoType.Named pkgPath name (.Struct text)).String).2 ∧
      ∀ c ∈ (GetTypeStringOf L (some (.Named pkgPath name (.Struct text))) expr n false).1,
        c ≠ '[' ∧ c ≠ ']' ∧ c ≠ '&' := by
  have e0 : (GetTypeStringOf L (some (.Named pkgPath name (.Struct text))) expr [] false).1 =
      (typeNameOf L (GoType.Named pkgPath name (.Struct text)).String).2 := by
    simp [GetTypeStringOf, GetTypeState, recheck, Join_eq]
  have e1 : (GetTypeStringOf L (some (.Named pkgPath name (.Struct text))) expr n false).1 =
      (typeNameOf L (GoType.Named pkgPath name (.Struct text)).String).2 ++ " ".toList ++ n := by
    simp [GetTypeStringOf, GetTypeState, recheck, Join_eq, hn]
  refine ⟨by rw [e0, e1], e0, ?_⟩
  intro c hc
  rw [e1] at hc
  have hstr : ∀ c ∈ (GoType.Named pkgPath name (.Struct text)).String,
      c ≠ '[' ∧ c ≠ ']' ∧ c ≠ '&' := by
    intro d hd
    simp only [GoType.String] at hd
    split at hd
    · rcases List.mem_append.mp hd with hd | hd
      · rcases List.mem_append.mp hd with hd | hd
        · exact hclean d (by simp [hd])
        · have : d = '.' := by simpa using hd
          subst this; decide
      · exact hclean d (by simp [hd])
    · exact hclean d (by simp [hd])
  rcases List.mem_append.mp hc with hc | hc
  · rcases List.mem_append.mp hc with hc | hc
    · rcases mem_typeNameOf L _ c hc with h | h | h
      · exact hstr c h
      · exact (by decide : ∀ d ∈ "Function".toList, d ≠ '[' ∧ d ≠ ']' ∧ d ≠ '&') c h
      · exact (by decide : ∀ d ∈ "any".toList, d ≠ '[' ∧ d ≠ ']' ∧ d ≠ '&') c h
    · have : c = ' ' := by simpa using hc
      subst this; decide
  · exact hclean c (by simp [hc])

/-- C5, witness: the struct type `Vec3` of package `main` and the name "pos". -/
theorem C5_named_struct_field_witness :
    ("pos".toList ≠ [] ∧
      ∀ c ∈ "main".toList ++ "Vec3".toList ++ "pos".toList, c ≠ '[' ∧ c ≠ ']' ∧ c ≠ '&') ∧
    ((GetTypeStringOf SampleLetter
        (some (.Named "main".toList "Vec3".toList (.Struct "struct{x float32}".toList)))
        SampleExpr "pos".toList false).1 =
        (GetTypeStringOf SampleLetter
          (some (.Named "main".toList "Vec3".toList (.Struct "struct{x float32}".toList)))
          SampleExpr [] false).1 ++ " ".toList ++ "pos".toList ∧
      (GetTypeStringOf SampleLetter
        (some (.Named "main".toList "Vec3".toList (.Struct "struct{x float32}".toList)))
        SampleExpr [] false).1 =
        (typeNameOf SampleLetter
          (GoType.Named "main".toList "Vec3".toList (.Struct "struct{x float32}".toList)).String).2 ∧
      ∀ c ∈ (GetTypeStringOf SampleLetter
          (some (.Named "main".toList "Vec3".toList (.Struct "struct{x float32}".toList)))
          SampleExpr "pos".toList false).1,
        c ≠ '[' ∧ c ≠ ']' ∧ c ≠ '&') :=
  ⟨⟨by decide, by decide⟩,
    C5_named_struct_field SampleLetter SampleExpr "main".toList "Vec3".toList
      "struct{x float32}".toList "pos".toList (by decide) (by decide)⟩

/-- C6 (as amended): for the invalid type `GetTypeString` returns "any", followed by " n"
when the name `n` is not empty, in parameter and in non-parameter context; for an expression
with no recorded type the type name stays empty and the result is " n", or nothing when `n`
is empty. -/
theorem C6_invalid_and_unresolved (L : Char → Bool) (expr : Expr) (n : Str) (param : Bool) :
    (GetTypeStringOf L (some (.Basic .Invalid)) expr n param).1 =
        "any".toList ++ (if n = [] then [] else " ".toList ++ n) ∧
      (GetTypeStringOf L none expr n param).1 = (if n = [] then [] else " ".toList ++ n) := by
  constructor
  · rw [GetTypeStringOf_basic L expr .Invalid n param (by decide) (by decide)]
    rfl
  · simp only [GetTypeStringOf, GetTypeState, Join_eq, name_part]
    cases param <;> simp

/-- C6, counterexample: an expression with no recorded type and the name "n" give " n" and
not "any n". -/
theorem C6_counterexample :
    (GetTypeStringOf SampleLetter none SampleExpr "n".toList false).1 = " n".toList ∧
      (GetTypeStringOf SampleLetter none SampleExpr "n".toList false).1 ≠ "any n".toList := by
  decide

theorem WriteString_WriteString (g : Emit) (a b : Str) :
    (g.WriteString a).WriteString b = g.WriteString (a ++ b) := by
  simp [Emit.WriteString, List.append_assoc]

theorem Newline_Tabs (g : Emit) (flags : Nat) : (g.Newline flags).cb.Tabs = g.cb.Tabs := by
  unfold Emit.Newline
  split <;> rfl

theorem MakeStmts_eq (env : ASTMod) (g : Emit) (stmts : List Stmt) (flags : Nat) :
    MakeStmts env g stmts flags =
      (MakeStmtsLoop env
        ((g.WriteString ("\n".toList ++ WriteTabStr g.cb.Tabs ++ "\x7b".toList)).SetTabs
          ((g.cb.Tabs + 1) % 2 ^ 64)) stmts flags).bind fun g2 =>
        some ((g2.SetTabs ((g2.cb.Tabs + (2 ^ 64 - 1)) % 2 ^ 64)).WriteString
          ("\n".toList ++ WriteTabStr g.cb.Tabs ++ "\x7d".toList)) := by
  cases stmts with
  | nil => rfl
  | cons s rest =>
    rw [MakeStmts, MakeStmtsLoop]
    simp only [Option.bind_eq_bind, Option.bind_assoc]
    rfl

theorem MakeStmtsLoop_cons (env : ASTMod) (g : Emit) (stmt : Stmt) (rest : List Stmt)
    (flags : Nat) :
    MakeStmtsLoop env g (stmt :: rest) flags =
      (MakeStmt env g stmt flags).bind fun g2 => MakeStmtsLoop env g2 rest flags := rfl

theorem WriteString_Tabs (g : Emit) (a : Str) : (g.WriteString a).cb.Tabs = g.cb.Tabs := rfl

theorem intercalate_cons_cons (sep a b : Str) (l : List Str) :
    sep.intercalate (a :: b :: l) = a ++ sep ++ sep.intercalate (b :: l) := by
  simp [List.intercalate, List.intersperse]

theorem CaseValues_eq (cases : Nat) :
    ∀ (list : List Expr) (i : Nat), i + list.length = cases →
      CaseValues cases i list = (", ".toList).intercalate (list.map GetExprString) := by
  intro list
  induction list with
  | nil => intro i _; rfl
  | cons e l ih =>
    intro i h
    cases l with
    | nil =>
      have h1 : i + 1 = cases := by simpa using h
      simp [CaseValues, h1, List.intercalate]
    | cons e2 l2 =>
      have h1 : i + 1 ≠ cases := by simp only [List.length_cons] at h; omega
      have h2 : i + 1 + (e2 :: l2).length = cases := by simp only [List.length_cons] at h ⊢; omega
      rw [CaseValues, if_pos h1, ih (i + 1) h2]
      simp only [List.map_cons, intercalate_cons_cons]

theorem CaseConds_eq (conds : Nat) :
    ∀ (list : List Expr) (n : Nat), n + list.length = conds →
      CaseConds conds n list = OrJoin list := by
  intro list
  induction list with
  | nil => intro i _; rfl
  | cons e l ih =>
    intro i h
    cases l with
    | nil =>
      have h1 : i + 1 = conds := by simpa using h
      simp [CaseConds, h1, OrJoin, List.intercalate]
    | cons e2 l2 =>
      have h1 : i + 1 ≠ conds := by simp only [List.length_cons] at h; omega
      have h2 : i + 1 + (e2 :: l2).length = conds := by simp only [List.length_cons] at h ⊢; omega
      rw [CaseConds, if_pos h1, ih (i + 1) h2]
      simp only [OrJoin, List.map_cons, intercalate_cons_cons]

theorem MakeStmt_CaseClause (env : ASTMod) (g : Emit) (list : List Expr) (Body : List Stmt)
    (flags : Nat) :
    MakeStmt env g (.CaseClause list Body) flags =
      MakeStmts env
        ((g.Newline flags).WriteString (WriteTabStr g.cb.Tabs ++ CaseLabel list)) Body
        (GENFLAG_NEWLINE ||| GENFLAG_SEMICOLON) := by
  cases list with
  | nil =>
    rw [← Newline_Tabs g flags]
    rfl
  | cons e l =>
    have h : MakeStmt env g (.CaseClause (e :: l) Body) flags =
        MakeStmts env
          ((((g.Newline flags).WriteString (WriteTabStr (g.Newline flags).cb.Tabs ++
            "case ".toList)).WriteString (CaseValues (e :: l).length 0 (e :: l))).WriteString
            ":".toList) Body (GENFLAG_NEWLINE ||| GENFLAG_SEMICOLON) := rfl
    rw [h, WriteString_WriteString, WriteString_WriteString, Newline_Tabs,
      CaseValues_eq _ _ 0 (by simp)]
    simp [CaseLabel, List.append_assoc]

theorem Newline_3 (g : Emit) :
    g.Newline (GENFLAG_NEWLINE ||| GENFLAG_SEMICOLON) = g.WriteString "\n".toList := rfl

theorem MakeStmtsLoop_clauses (env : ASTMod) :
    ∀ (clauses : List (List Expr × List Stmt)) (g : Emit),
      MakeStmtsLoop env g (clauses.map Stmt.ofClause) (GENFLAG_NEWLINE ||| GENFLAG_SEMICOLON) =
        EmitClauses env clauses g := by
  intro clauses
  induction clauses with
  | nil => intro g; rfl
  | cons c rest ih =>
    intro g
    rw [List.map_cons, MakeStmtsLoop_cons, EmitClauses]
    have h : MakeStmt env g (Stmt.ofClause c) (GENFLAG_NEWLINE ||| GENFLAG_SEMICOLON) =
        MakeStmts env (g.WriteString ("\n".toList ++ WriteTabStr g.cb.Tabs ++ CaseLabel c.1)) c.2
          (GENFLAG_NEWLINE ||| GENFLAG_SEMICOLON) := by
      rw [Stmt.ofClause, MakeStmt_CaseClause, Newline_3, WriteString_WriteString,
        List.append_assoc]
    rw [h]
    congr 1
    funext g2
    exact ih g2

theorem HasPrefix_append (p s : Str) : HasPrefix (p ++ s) p = true := by
  induction p with
  | nil => cases s <;> rfl
  | cons a p ih => simp [HasPrefix, ih]

theorem CaseLabel_case (list : List Expr) :
    HasPrefix (CaseLabel list) "case ".toList = !list.isEmpty := by
  cases list with
  | nil => rfl
  | cons e l =>
    simp only [CaseLabel, List.isEmpty_cons, Bool.false_eq_true, ↓reduceIte, Bool.not_false,
      List.append_assoc]
    exact HasPrefix_append _ _

theorem CaseLabel_default (list : List Expr) :
    decide (CaseLabel list = "default:".toList) = list.isEmpty := by
  cases list with
  | nil => rfl
  | cons e l =>
    simp [CaseLabel]

/-- C8: for a switch statement with a tag `tag` whose body is the case clauses `clauses`,
`MakeStmt` appends the indent, "switch (" + `GetExprString(tag)` + ")" and a brace block
that holds, in source order and per clause, a line with the label ("case v1, v2, ...:", or
"default:" for a clause without values) followed by the clause body as a brace block. As
many labels start with "case " as clauses have values, as many are "default:" as have none. -/
theorem C8_tagged_switch (env : ASTMod) (g : Emit) (Init : Option Stmt) (tag : Expr)
    (clauses : List (List Expr × List Stmt)) (flags : Nat) :
    MakeStmt env g (.SwitchStmt Init (some tag) (clauses.map Stmt.ofClause)) flags =
        (EmitClauses env clauses
          ((((g.Newline flags).WriteString
            (WriteTabStr g.cb.Tabs ++ "switch (".toList ++ GetExprString tag ++ ")".toList)).WriteString
            ("\n".toList ++ WriteTabStr g.cb.Tabs ++ "\x7b".toList)).SetTabs
            ((g.cb.Tabs + 1) % 2 ^ 64))).bind (fun g2 =>
          some ((g2.SetTabs ((g2.cb.Tabs + (2 ^ 64 - 1)) % 2 ^ 64)).WriteString
            ("\n".toList ++ WriteTabStr g.cb.Tabs ++ "\x7d".toList))) ∧
      ((clauses.map (fun c => CaseLabel c.1)).countP (fun l => HasPrefix l "case ".toList) =
        clauses.countP (fun c => !c.1.isEmpty)) ∧
      ((clauses.map (fun c => CaseLabel c.1)).countP (fun l => decide (l = "default:".toList)) =
        clauses.countP (fun c => c.1.isEmpty)) ∧
      (MakeStmt SampleEnv SampleEmit
          (.SwitchStmt none (some SampleExpr) (SampleClauses.map Stmt.ofClause)) 3).map
          (fun g2 => g2.cb.Body) =
        some ("\n\tswitch (x)\n\t\x7b" ++
          "\n\t\tcase 1, 2:\n\t\t\x7b\n\t\t\tA();\n\t\t\x7d" ++
          "\n\t\tcase 3:\n\t\t\x7b\n\t\t\tB();\n\t\t\x7d" ++
          "\n\t\tdefault:\n\t\t\x7b\n\t\t\tC();\n\t\t\x7d" ++ "\n\t\x7d").toList := by
  refine ⟨?_, ?_, ?_, by decide⟩
  · have h : MakeStmt env g (.SwitchStmt Init (some tag) (clauses.map Stmt.ofClause)) flags =
        MakeStmts env ((g.Newline flags).WriteString
          (WriteTabStr (g.Newline flags).cb.Tabs ++ "switch (".toList ++ GetExprString tag ++
            ")".toList)) (clauses.map Stmt.ofClause) (GENFLAG_NEWLINE ||| GENFLAG_SEMICOLON) := rfl
    rw [h, MakeStmts_eq, MakeStmtsLoop_clauses]
    simp only [WriteString_Tabs, Newline_Tabs]
  · rw [List.countP_map]
    congr 1
    funext c
    exact CaseLabel_case c.1
  · rw [List.countP_map]
    congr 1
    funext c
    exact CaseLabel_default c.1

theorem all_isCaseClause (clauses : List (List Expr × List Stmt)) :
    (clauses.map Stmt.ofClause).all Stmt.isCaseClause = true := by
  induction clauses with
  | nil => rfl
  | cons c rest ih => simpa [Stmt.ofClause, Stmt.isCaseClause] using ih

theorem MakeSwitchCases_cons (env : ASTMod) (tabstr : Str) (cases : Nat) (g : Emit) (i : Nat)
    (list : List Expr) (Body : List Stmt) (rest : List Stmt) :
    MakeSwitchCases env tabstr cases g i (.CaseClause list Body :: rest) =
      (MakeStmts env
        ((fun g2 : Emit => if (i = 0 || i + 1 ≠ cases) = true then g2.WriteString ")".toList else g2)
          ((fun g1 : Emit =>
            if list.length = 0 ∧ i = 0 then g1.WriteString "true".toList
            else g1.WriteString (CaseConds list.length 0 list))
            (if i = 0 then g.WriteString (tabstr ++ "if (".toList)
             else if i + 1 ≠ cases then g.WriteString (tabstr ++ "else if (".toList)
             else g.WriteString (tabstr ++ "else".toList))))
        Body (GENFLAG_NEWLINE ||| GENFLAG_SEMICOLON)).bind fun g3 =>
        MakeSwitchCases env tabstr cases
          (if i + 1 ≠ cases then g3.WriteString "\n".toList else g3) (i + 1) rest := rfl

theorem SwitchGuard_write (tabstr : Str) (cases i : Nat) (list : List Expr) (g : Emit)
    (hlast : i ≠ 0 → i + 1 = cases → list = []) :
    (fun g2 : Emit => if (i = 0 || i + 1 ≠ cases) = true then g2.WriteString ")".toList else g2)
        ((fun g1 : Emit =>
          if list.length = 0 ∧ i = 0 then g1.WriteString "true".toList
          else g1.WriteString (CaseConds list.length 0 list))
          (if i = 0 then g.WriteString (tabstr ++ "if (".toList)
           else if i + 1 ≠ cases then g.WriteString (tabstr ++ "else if (".toList)
           else g.WriteString (tabstr ++ "else".toList))) =
      g.WriteString (tabstr ++ SwitchGuard cases i list) := by
  have hc : CaseConds list.length 0 list = OrJoin list := CaseConds_eq _ _ 0 (by simp)
  by_cases h0 : i = 0
  · subst h0
    cases list with
    | nil => simp [SwitchGuard, WriteString_WriteString]
    | cons e l =>
      have hc2 : CaseConds (l.length + 1) 0 (e :: l) = OrJoin (e :: l) := hc
      simp [SwitchGuard, WriteString_WriteString, hc2]
  · by_cases h1 : i + 1 = cases
    · have hl := hlast h0 h1
      subst hl
      simp [SwitchGuard, WriteString_WriteString, h0, h1, CaseConds]
    · simp [SwitchGuard, WriteString_WriteString, h0, h1, hc]

theorem MakeSwitchCases_eq (env : ASTMod) (tabstr : Str) (cases : Nat) :
    ∀ (rest : List (List Expr × List Stmt)) (i : Nat) (g : Emit),
      i + rest.length = cases →
      (2 ≤ cases → ∀ c, rest.getLast? = some c → c.1 = []) →
      MakeSwitchCases env tabstr cases g i (rest.map Stmt.ofClause) =
        SwitchChain env tabstr cases i rest g := by
  intro rest
  induction rest with
  | nil => intro i g _ _; rfl
  | cons c rest ih =>
    intro i g hlen hlast
    rw [List.map_cons, Stmt.ofClause, MakeSwitchCases_cons, SwitchChain]
    have hl : i ≠ 0 → i + 1 = cases → c.1 = [] := by
      intro h0 h1
      have hr : rest = [] := by
        simp only [List.length_cons] at hlen
        exact List.length_eq_zero.mp (by omega)
      subst hr
      exact hlast (by omega) c rfl
    rw [SwitchGuard_write tabstr cases i c.1 g hl]
    congr 1
    funext g3
    apply ih
    · simp only [List.length_cons] at hlen; omega
    · intro h2 c2 hc2
      cases rest with
      | nil => simp at hc2
      | cons c3 rest3 =>
        apply hlast h2 c2
        rw [List.getLast?_cons_cons]
        exact hc2

/-- C7 (as amended): for a switch statement without tag whose body is the case clauses
`clauses`, the last of which has an empty condition list when there are two or more,
`MakeStmt` emits the clauses in source order as a chain: the indent and "if (" ... ")" for the
first clause ("true" for an empty list), "else if (" ... ")" for a later clause that is not
the last, and "else" for the last clause; a guard holds the conditions of its clause, each in
parentheses, joined by " || ". Cases `[1,2]`, `[3]`, default give "if ((1) || (2))",
"else if ((3))", "else". -/
theorem C7_switch_chain (env : ASTMod) (g : Emit) (Init : Option Stmt)
    (clauses : List (List Expr × List Stmt)) (flags : Nat)
    (hlast : 2 ≤ clauses.length → ∀ c, clauses.getLast? = some c → c.1 = []) :
    MakeStmt env g (.SwitchStmt Init none (clauses.map Stmt.ofClause)) flags =
        SwitchChain env (WriteTabStr g.cb.Tabs) clauses.length 0 clauses (g.Newline flags) ∧
      SwitchGuard 3 0 [SampleLit "1", SampleLit "2"] = "if ((1) || (2))".toList ∧
      SwitchGuard 3 1 [SampleLit "3"] = "else if ((3))".toList ∧
      SwitchGuard 3 2 [] = "else".toList := by
  refine ⟨?_, by decide, by decide, by decide⟩
  have h : MakeStmt env g (.SwitchStmt Init none (clauses.map Stmt.ofClause)) flags =
      if (clauses.map Stmt.ofClause).all Stmt.isCaseClause then
        MakeSwitchCases env (WriteTabStr (g.Newline flags).cb.Tabs)
          (clauses.map Stmt.ofClause).length (g.Newline flags) 0 (clauses.map Stmt.ofClause)
      else none := rfl
  rw [h, all_isCaseClause, if_pos rfl, List.length_map, Newline_Tabs]
  exact MakeSwitchCases_eq env _ _ clauses 0 _ (by simp) hlast

/-- C7, witness: the clauses `case 1, 2: A()`, `case 3: B()` and `default: C()`. -/
theorem C7_switch_chain_witness :
    (2 ≤ SampleClauses.length → ∀ c, SampleClauses.getLast? = some c → c.1 = []) ∧
    (MakeStmt SampleEnv SampleEmit (.SwitchStmt none none (SampleClauses.map Stmt.ofClause)) 3 =
        SwitchChain SampleEnv (WriteTabStr SampleEmit.cb.Tabs) SampleClauses.length 0
          SampleClauses (SampleEmit.Newline 3) ∧
      SwitchGuard 3 0 [SampleLit "1", SampleLit "2"] = "if ((1) || (2))".toList ∧
      SwitchGuard 3 1 [SampleLit "3"] = "else if ((3))".toList ∧
      SwitchGuard 3 2 [] = "else".toList) :=
  ⟨fun _ c hc => by cases hc; rfl,
    C7_switch_chain SampleEnv SampleEmit none SampleClauses 3 (fun _ c hc => by cases hc; rfl)⟩

/-- C7, counterexample: for the clauses `case 1, 2: A()` and `case 3: B()` the first guard is
"if ((1) || (2))", with blanks around the operator, and the last clause, which has a
condition, is emitted as "else(3)": the text holds neither "(1)||(2)" nor "else if (". -/
theorem C7_counterexample :
    (MakeStmt SampleEnv SampleEmit
        (.SwitchStmt none none (SampleClausesNoDefault.map Stmt.ofClause)) 3).map
        (fun g => g.cb.Body) =
      some "\n\tif ((1) || (2))\n\t\x7b\n\t\tA();\n\t\x7d\n\telse(3)\n\t\x7b\n\t\tB();\n\t\x7d".toList ∧
    (MakeStmt SampleEnv SampleEmit
        (.SwitchStmt none none (SampleClausesNoDefault.map Stmt.ofClause)) 3).map
        (fun g => Contains g.cb.Body "else if (".toList) = some false ∧
    (MakeStmt SampleEnv SampleEmit
        (.SwitchStmt none none (SampleClausesNoDefault.map Stmt.ofClause)) 3).map
        (fun g => Contains g.cb.Body "(1)||(2)".toList) = some false := by
  decide

/-- C9: for a range statement with key rendering `K` (nothing for an absent key), collection
rendering `X` and body `B`, `MakeStmt` appends, after the optional new line, the indent and
"for (int K; K < sizeof(X); K++)", and then the brace block that `MakeStmts` produces for `B`;
the value variable and the assignment token of the range clause have no effect. -/
theorem C9_range_header (env : ASTMod) (g : Emit) (Key Value : Option Expr) (Tok : Token)
    (X : Expr) (Body : List Stmt) (flags : Nat) :
    MakeStmt env g (.RangeStmt Key Value Tok X Body) flags =
        MakeStmts env
          ((g.Newline flags).WriteString (WriteTabStr g.cb.Tabs ++
            ("for (int ".toList ++ GetExprStringNil Key ++ "; ".toList ++ GetExprStringNil Key ++
              " < sizeof(".toList ++ GetExprString X ++ "); ".toList ++ GetExprStringNil Key ++
              "++)".toList)))
          Body (GENFLAG_NEWLINE ||| GENFLAG_SEMICOLON) ∧
      (∀ (Value2 : Option Expr) (Tok2 : Token),
        MakeStmt env g (.RangeStmt Key Value2 Tok2 X Body) flags =
          MakeStmt env g (.RangeStmt Key Value Tok X Body) flags) ∧
      (MakeStmt SampleEnv SampleEmit
          (.RangeStmt (some (.Ident ⟨0, "i".toList⟩)) (some (.Ident ⟨0, "v".toList⟩)) .DEFINE
            (.Ident ⟨0, "xs".toList⟩) [SampleCall "A"]) 3).map (fun g2 => g2.cb.Body) =
        some "\n\tfor (int i; i < sizeof(xs); i++)\n\t\x7b\n\t\tA();\n\t\x7d".toList := by
  refine ⟨?_, fun _ _ => rfl, by decide⟩
  rw [← Newline_Tabs g flags]
  rfl

theorem MakeStmt_raw (env : ASTMod) (g : Emit) (NamePos ValuePos : Nat) (Kind : Token)
    (code_value : Str) (rest : List Expr) (flags : Nat) :
    MakeStmt env g
        (.ExprStmt (.CallExpr (.Ident ⟨NamePos, "__sp__".toList⟩)
          (.BasicLit ValuePos Kind code_value :: rest))) flags =
      if code_value.length < 2 then none
      else some ((g.Newline flags).WriteString (WriteTabStr (g.Newline flags).cb.Tabs ++
        (code_value.drop 1).take (code_value.length - 2))) := rfl

/-- C10: an expression statement that calls the identifier `__sp__` with one string literal,
whose text is a delimiter `d1`, the content `S` and a delimiter `d2`, makes `MakeStmt` append
the new line if `GENFLAG_NEWLINE` is set, the tabs of the indent and `S`, and nothing else,
whatever the flags: no semicolon is added. `__sp__("PrintToServer(42);")` at indent 1 and
with both flags appends a new line, a tab and `PrintToServer(42);`. -/
theorem C10_raw_injection (env : ASTMod) (g : Emit) (NamePos ValuePos : Nat)
    (S : Str) (d1 d2 : Char) (flags : Nat) :
    MakeStmt env g
        (.ExprStmt (.CallExpr (.Ident ⟨NamePos, "__sp__".toList⟩)
          [.BasicLit ValuePos .STRING (d1 :: (S ++ [d2]))])) flags =
        some ((g.Newline flags).WriteString (WriteTabStr g.cb.Tabs ++ S)) ∧
      (MakeStmt SampleEnv SampleEmit
          (.ExprStmt (.CallExpr (.Ident ⟨0, "__sp__".toList⟩)
            [.BasicLit 0 .STRING "\"PrintToServer(42);\"".toList])) 3).map
          (fun g2 => g2.cb.Body) = some "\n\tPrintToServer(42);".toList := by
  refine ⟨?_, by decide⟩
  have h2 : ¬ ((d1 :: (S ++ [d2])).length < 2) := by simp
  have h3 : ((d1 :: (S ++ [d2])).drop 1).take ((d1 :: (S ++ [d2])).length - 2) = S := by
    simp
  rw [MakeStmt_raw, if_neg h2, h3, Newline_Tabs]

set_option maxRecDepth 100000 in
/-- C11 (the code departs from it): for the file `type A struct { x int }; type B struct { y
int }` the text that `GeneratePluginFile` returns depends on the order in which the range
statement over the map `plugin.Structs` visits the two entries: with one order the section
of `A` comes first, with the other the section of `B`. -/
theorem C11_struct_order_follows_map_iteration :
    (GeneratePluginFile SampleEnvTyped id SampleTwoStructs).map Prod.fst =
        some (Header ++ ("\nenum struct A \x7b\n\tint x;\n\x7d\n\n" ++
          "enum struct B \x7b\n\tint y;\n\x7d\n\n").toList) ∧
      (GeneratePluginFile SampleEnvTyped List.reverse SampleTwoStructs).map Prod.fst =
        some (Header ++ ("\nenum struct B \x7b\n\tint y;\n\x7d\n\n" ++
          "enum struct A \x7b\n\tint x;\n\x7d\n\n").toList) ∧
      (GeneratePluginFile SampleEnvTyped id SampleTwoStructs).map Prod.fst ≠
        (GeneratePluginFile SampleEnvTyped List.reverse SampleTwoStructs).map Prod.fst := by
  decide

/-- C12 (the code departs from it): a defining assignment with two identifiers on the left
and one expression on the right makes `MakeStmt` panic, on the index `n.Rhs[1]`, for every
state and every flag set; the same assignment with `=` is emitted with the value repeated. -/
theorem C12_define_with_one_value_panics (env : ASTMod) (g : Emit) (flags : Nat) (a b : Ident)
    (rhs : Expr) :
    MakeStmt env g (.AssignStmt [.Ident a, .Ident b] .DEFINE [rhs]) flags = none ∧
      (MakeStmt SampleEnvTyped SampleEmit
          (.AssignStmt [SampleName "a", SampleName "b"] .ASSIGN
            [.CallExpr (SampleName "f") []]) 3).map (fun g2 => g2.cb.Body) =
        some "\n\ta = f();\n\tb = f();".toList := by
  constructor
  · rfl
  · decide

/-- C13 (the code departs from it): for a constant spec without a declared type that has a
name and no value, as the second entry of `const ( A = iota; B )`, `MakeConstSpec` panics on
the index `const_spec.Values[0]`, and so does `GeneratePluginFile` on the file that holds the
group. -/
theorem C13_const_spec_without_value_panics (env : ASTMod) (name : Ident) (rest : List Ident)
    (tabs : Nat) (errs : List SrcGoErr) (iter : List (Str × EStruct) → List (Str × EStruct)) :
    MakeConstSpec env ⟨name :: rest, none, []⟩ tabs errs = none ∧
      GeneratePluginFile env iter SampleIotaGroup = none := by
  constructor <;> rfl

theorem MakeInclude_local (P : Str) (q : Char) :
    MakeInclude ('"' :: '.' :: (P ++ [q])) =
      some ("#include \"".toList ++ (P ++ [q]) ++ "\"".toList) := rfl

/-- C14 (the code departs from it): for an import path literal that starts with the marker
'.', the include directive keeps the closing quote of the literal and adds one more, so the
path `P` is followed by two double quotes: `import ".mylib"` gives `#include "mylib""`.
Another path gives `#include <P>`. -/
theorem C14_local_include_keeps_closing_quote (P : Str) :
    MakeInclude ("\".".toList ++ P ++ "\"".toList) =
        some ("#include \"".toList ++ P ++ "\"\"".toList) ∧
      MakeInclude "\".mylib\"".toList = some "#include \"mylib\"\"".toList ∧
      MakeInclude "\"sourcemod\"".toList = some "#include <sourcemod>".toList := by
  refine ⟨?_, by decide, by decide⟩
  have h := MakeInclude_local P '"'
  simpa using h

/-- C15 (the code departs from it): after `type Vec3 struct { x float32 }` has been
registered under the key "Vec3", the receiver type of a method of `Vec3` or of `*Vec3` is
rendered "Vec", because the trimming of the type name also removes the digit at its end; the
lookup misses and `MakeFuncDecl` leaves the plugin as it was, without the method. -/
theorem C15_method_of_Vec3_is_dropped :
    SampleVec3Registered.map (fun b => b.plugin.Structs) =
        some [("Vec3".toList, { Fields := ["float x".toList] })] ∧
      (GetTypeString SampleEnvTyped (SampleName "Vec3") [] false).1 = "Vec".toList ∧
      (GetTypeString SampleEnvTyped (.StarExpr (SampleName "Vec3")) [] false).1 = "Vec".toList ∧
      (SampleVec3Registered.bind (fun b => MakeFuncDecl SampleEnvTyped b (SampleMethod false))).map
          (fun b => b.plugin) = SampleVec3Registered.map (fun b => b.plugin) ∧
      (SampleVec3Registered.bind (fun b => MakeFuncDecl SampleEnvTyped b (SampleMethod true))).map
          (fun b => b.plugin) = SampleVec3Registered.map (fun b => b.plugin) := by
  decide

theorem GetCallArgs_eq (len : Nat) :
    ∀ (Args : List Expr) (i : Nat), i + Args.length = len →
      GetCallArgs len i Args = (", ".toList).intercalate (Args.map GetExprString) := by
  intro Args
  induction Args with
  | nil => intro i _; rfl
  | cons e l ih =>
    intro i h
    cases l with
    | nil =>
      have h1 : i + 1 = len := by simpa using h
      simp [GetCallArgs, h1, List.intercalate]
    | cons e2 l2 =>
      have h1 : i + 1 ≠ len := by simp only [List.length_cons] at h; omega
      have h2 : i + 1 + (e2 :: l2).length = len := by simp only [List.length_cons] at h ⊢; omega
      rw [GetCallArgs, if_pos h1, ih (i + 1) h2]
      simp only [List.map_cons, intercalate_cons_cons]

theorem GetExprString_CallExpr (Fun : Expr) (Args : List Expr) :
    GetExprString (.CallExpr Fun Args) =
      ((match FuncNames (GetExprString Fun) with
        | some n => n
        | none => GetExprString Fun) ++ "(".toList) ++ GetCallArgs Args.length 0 Args ++
        ")".toList := rfl

/-- C16: for a call expression whose callee renders to `f`, `GetExprString` returns the entry
of `FuncNames` for `f` when there is one and `f` otherwise, then "(", the renderings of the
arguments joined by ", ", and ")". The table maps `len` to `sizeof` and `main` to
`OnPluginStart` and nothing else; `len(xs)` renders as `sizeof(xs)`. -/
theorem C16_call_expression (Fun : Expr) (Args : List Expr) :
    GetExprString (.CallExpr Fun Args) =
        (FuncNames (GetExprString Fun)).getD (GetExprString Fun) ++ "(".toList ++
          (", ".toList).intercalate (Args.map GetExprString) ++ ")".toList ∧
      FuncNames "len".toList = some "sizeof".toList ∧
      FuncNames "main".toList = some "OnPluginStart".toList ∧
      (∀ f : Str, f ≠ "len".toList → f ≠ "main".toList → FuncNames f = none) ∧
      GetExprString (.CallExpr (SampleName "len") [SampleName "xs"]) = "sizeof(xs)".toList := by
  refine ⟨?_, by decide, by decide, ?_, by decide⟩
  · rw [GetExprString_CallExpr, GetCallArgs_eq _ _ 0 (by simp)]
    cases FuncNames (GetExprString Fun) <;> rfl
  · intro f h1 h2
    simp only [FuncNames, if_neg h1, if_neg h2]

/-- C17 (the code departs from it): for `const a, b int = 1, 2` `MakeConstSpec` pairs every
name with every value and returns four initialisers, not the two of the claim. -/
theorem C17_typed_const_pairs_every_name_with_every_value :
    (MakeConstSpec SampleEnvTyped
        ⟨[SampleIdent "a", SampleIdent "b"], some (SampleName "int"),
          [SampleLit "1", SampleLit "2"]⟩ 0 []).map (fun o => o.str) =
      some "int a = 1;\nint a = 2;\nint b = 1;\nint b = 2;\n".toList ∧
    (MakeConstSpec SampleEnvTyped
        ⟨[SampleIdent "a", SampleIdent "b"], some (SampleName "int"),
          [SampleLit "1", SampleLit "2"]⟩ 0 []).map (fun o => o.str) ≠
      some "int a = 1;\nint b = 2;\n".toList := by
  decide

/-- C18 (the code departs from it): for `var a, b = 1, 2` `MakeVarSpec` writes, for every
name, an entry for every value, and the semicolon only after the last of them: it returns
"int a = 1int a = 2;" and "int b = 1int b = 2;", not the two initialisers of the claim. -/
theorem C18_untyped_var_pairs_every_name_with_every_value :
    (MakeVarSpec SampleEnvTyped
        ⟨[SampleIdent "a", SampleIdent "b"], none, [SampleLit "1", SampleLit "2"]⟩ 0 []).str =
      "int a = 1int a = 2;\nint b = 1int b = 2;\n".toList ∧
    (MakeVarSpec SampleEnvTyped
        ⟨[SampleIdent "a", SampleIdent "b"], none, [SampleLit "1", SampleLit "2"]⟩ 0 []).str ≠
      "int a = 1;\nint b = 2;\n".toList := by
  decide

/-- C19 (the code departs from it): the block of a final else is generated with
`GENFLAG_NEWLINE` alone, the body of the if with both flags: in `if c { A() } else { B() }`
the call in the if body ends with a semicolon and the call in the else block does not. -/
theorem C19_else_block_without_semicolon (env : ASTMod) (tabstr : Str) (g : Emit)
    (list : List Stmt) :
    MakeIfElse env tabstr g (some (.BlockStmt list)) =
        MakeStmts env (g.WriteString ("\n".toList ++ tabstr ++ "else ".toList)) list
          GENFLAG_NEWLINE ∧
      (MakeStmt SampleEnv SampleEmit
          (.IfStmt none (SampleName "c") [SampleCall "A"] (some (.BlockStmt [SampleCall "B"])))
          3).map (fun g2 => g2.cb.Body) =
        some ("\n\tif (c)\n\t\x7b\n\t\tA();\n\t\x7d" ++
          "\n\telse \n\t\x7b\n\t\tB()\n\t\x7d").toList := by
  constructor
  · rfl
  · decide

theorem Semicolon_Tabs (g : Emit) (flags : Nat) : (g.Semicolon flags).cb.Tabs = g.cb.Tabs := by
  unfold Emit.Semicolon
  split <;> rfl

theorem AssignDefine_Tabs (env : ASTMod) (tabstr : Str) (flags left_len : Nat) (Rhs : List Expr) :
    ∀ (Lhs : List Expr) (i : Nat) (g g2 : Emit),
      AssignDefine env tabstr flags left_len Rhs i Lhs g = some g2 → g2.cb.Tabs = g.cb.Tabs := by
  intro Lhs
  induction Lhs with
  | nil => intro i g g2 h; simp only [AssignDefine, Option.some.injEq] at h; rw [← h]
  | cons e rest ih =>
    intro i g g2 h
    cases e with
    | Ident var_name =>
      simp only [AssignDefine] at h
      split at h
      · cases h
      · rw [ih _ _ _ h]
        repeat' split
        all_goals rfl
    | _ => simp [AssignDefine] at h

theorem AssignPairs_Tabs (tabstr : Str) (flags left_len : Nat) (Tok : Token) (Rhs : List Expr) :
    ∀ (Lhs : List Expr) (i : Nat) (g g2 : Emit),
      AssignPairs tabstr flags left_len Tok Rhs i Lhs g = some g2 → g2.cb.Tabs = g.cb.Tabs := by
  intro Lhs
  induction Lhs with
  | nil => intro i g g2 h; simp only [AssignPairs, Option.some.injEq] at h; rw [← h]
  | cons e rest ih =>
    intro i g g2 h
    simp only [AssignPairs] at h
    split at h
    · cases h
    · rw [ih _ _ _ h]
      repeat' split
      all_goals rfl

theorem AssignBroadcast_Tabs (tabstr : Str) (flags left_len : Nat) (Tok : Token) (rhs : Expr) :
    ∀ (Lhs : List Expr) (i : Nat) (g : Emit),
      (AssignBroadcast tabstr flags left_len Tok rhs i Lhs g).cb.Tabs = g.cb.Tabs := by
  intro Lhs
  induction Lhs with
  | nil => intro i g; rfl
  | cons e rest ih =>
    intro i g
    simp only [AssignBroadcast]
    rw [ih]
    repeat' split
    all_goals rfl

theorem DeclVarSpecs_Tabs (env : ASTMod) :
    ∀ (Specs : List Spec) (g g2 : Emit),
      DeclVarSpecs env Specs g = some g2 → g2.cb.Tabs = g.cb.Tabs := by
  intro Specs
  induction Specs with
  | nil => intro g g2 h; simp only [DeclVarSpecs, Option.some.injEq] at h; rw [← h]
  | cons spec rest ih =>
    intro g g2 h
    cases spec with
    | ValueSpec var_spec =>
      simp only [DeclVarSpecs] at h
      rw [ih _ _ h]
      rfl
    | _ => simp [DeclVarSpecs] at h

theorem uint_inc_dec (t : Nat) (h : t < 2 ^ 64) :
    ((t + 1) % 2 ^ 64 + (2 ^ 64 - 1)) % 2 ^ 64 = t := by
  omega

theorem MakeStmts_Tabs (env : ASTMod) (stmts : List Stmt) (flags : Nat)
    (hloop : ∀ g g2 : Emit, g.cb.Tabs < 2 ^ 64 → MakeStmtsLoop env g stmts flags = some g2 →
      g2.cb.Tabs = g.cb.Tabs)
    (g g2 : Emit) (hlt : g.cb.Tabs < 2 ^ 64) (h : MakeStmts env g stmts flags = some g2) :
    g2.cb.Tabs = g.cb.Tabs := by
  rw [MakeStmts_eq, Option.bind_eq_some] at h
  obtain ⟨g1, h1, h2⟩ := h
  have e1 := hloop _ g1 (Nat.mod_lt _ (by norm_num)) h1
  simp only [Option.some.injEq] at h2
  rw [← h2]
  show (g1.cb.Tabs + (2 ^ 64 - 1)) % 2 ^ 64 = g.cb.Tabs
  rw [e1]
  exact uint_inc_dec _ hlt

theorem MakeStmt_AssignStmt (env : ASTMod) (g : Emit) (Lhs : List Expr) (Tok : Token)
    (Rhs : List Expr) (flags : Nat) :
    MakeStmt env g (.AssignStmt Lhs Tok Rhs) flags =
      if Tok = Token.DEFINE then
        AssignDefine env (WriteTabStr (g.Newline flags).cb.Tabs) flags Lhs.length Rhs 0 Lhs
          (g.Newline flags)
      else if Lhs.length = Rhs.length then
        AssignPairs (WriteTabStr (g.Newline flags).cb.Tabs) flags Lhs.length Tok Rhs 0 Lhs
          (g.Newline flags)
      else
        match Rhs with
        | [rhs] =>
          some (AssignBroadcast (WriteTabStr (g.Newline flags).cb.Tabs) flags Lhs.length Tok rhs 0
            Lhs (g.Newline flags))
        | _ => some (g.Newline flags) := rfl

theorem Tabs_of_some (g g1 g2 : Emit) (h : some g1 = some g2) (hT : g1.cb.Tabs = g.cb.Tabs) :
    g2.cb.Tabs = g.cb.Tabs := by
  cases h
  exact hT

theorem MakeStmts_Tabs_at (env : ASTMod) (stmts : List Stmt) (flags : Nat)
    (hloop : ∀ g g2 : Emit, g.cb.Tabs < 2 ^ 64 → MakeStmtsLoop env g stmts flags = some g2 →
      g2.cb.Tabs = g.cb.Tabs)
    (g g1 g2 : Emit) (hlt : g.cb.Tabs < 2 ^ 64) (h : MakeStmts env g1 stmts flags = some g2)
    (hT : g1.cb.Tabs = g.cb.Tabs) : g2.cb.Tabs = g.cb.Tabs := by
  rw [← hT]
  exact MakeStmts_Tabs env stmts flags hloop g1 g2 (hT ▸ hlt) h

theorem MakeStmt_ExprStmt_call (env : ASTMod) (g : Emit) (Fun : Expr) (Args : List Expr)
    (flags : Nat) :
    MakeStmt env g (.ExprStmt (.CallExpr Fun Args)) flags =
      if GetExprString Fun = "__sp__".toList then
        match Args with
        | [] =>
          some (((g.Newline flags).WriteString (WriteTabStr (g.Newline flags).cb.Tabs ++
            GetExprString (.CallExpr Fun Args))).Semicolon flags)
        | .BasicLit _ _ code_value :: _ =>
          if code_value.length < 2 then none
          else some ((g.Newline flags).WriteString (WriteTabStr (g.Newline flags).cb.Tabs ++
            (code_value.drop 1).take (code_value.length - 2)))
        | _ :: _ => none
      else
        some (((g.Newline flags).WriteString (WriteTabStr (g.Newline flags).cb.Tabs ++
          GetExprString (.CallExpr Fun Args))).Semicolon flags) := by
  cases Args with
  | nil => rfl
  | cons a rest => cases a <;> rfl

theorem SwitchCase_head_Tabs (tabstr : Str) (cases i : Nat) (list : List Expr) (g : Emit) :
    ((fun g2 : Emit => if (i = 0 || i + 1 ≠ cases) = true then g2.WriteString ")".toList else g2)
        ((fun g1 : Emit =>
          if list.length = 0 ∧ i = 0 then g1.WriteString "true".toList
          else g1.WriteString (CaseConds list.length 0 list))
          (if i = 0 then g.WriteString (tabstr ++ "if (".toList)
           else if i + 1 ≠ cases then g.WriteString (tabstr ++ "else if (".toList)
           else g.WriteString (tabstr ++ "else".toList)))).cb.Tabs = g.cb.Tabs := by
  simp only []
  repeat' split
  all_goals rfl

mutual
theorem MakeStmt_Tabs (env : ASTMod) :
    ∀ (stmt : Stmt) (flags : Nat) (g g2 : Emit), g.cb.Tabs < 2 ^ 64 →
      MakeStmt env g stmt flags = some g2 → g2.cb.Tabs = g.cb.Tabs
  | .BlockStmt list, flags, g, g2, hlt, h => by
    have e : MakeStmt env g (.BlockStmt list) flags =
        (MakeStmts env (g.Newline flags) list flags).bind
          (fun g1 => some (g1.Semicolon flags)) := rfl
    rw [e, Option.bind_eq_some] at h
    obtain ⟨g1, h1, h2⟩ := h
    have e1 := MakeStmts_Tabs_at env list flags (MakeStmtsLoop_Tabs env list flags) g _ g1 hlt h1
      (Newline_Tabs g flags)
    exact Tabs_of_some g _ g2 h2 (by rw [Semicolon_Tabs]; exact e1)
  | .AssignStmt Lhs Tok Rhs, flags, g, g2, _, h => by
    rw [MakeStmt_AssignStmt] at h
    split at h
    · rw [AssignDefine_Tabs _ _ _ _ _ _ _ _ _ h]; exact Newline_Tabs g flags
    · split at h
      · rw [AssignPairs_Tabs _ _ _ _ _ _ _ _ _ h]; exact Newline_Tabs g flags
      · split at h
        · exact Tabs_of_some g _ g2 h (by rw [AssignBroadcast_Tabs]; exact Newline_Tabs g flags)
        · exact Tabs_of_some g _ g2 h (Newline_Tabs g flags)
  | .ExprStmt X, flags, g, g2, _, h => by
    cases X with
    | CallExpr Fun Args =>
      rw [MakeStmt_ExprStmt_call] at h
      split at h
      · split at h
        · exact Tabs_of_some g _ g2 h (by rw [Semicolon_Tabs]; exact Newline_Tabs g flags)
        · split at h
          · cases h
          · exact Tabs_of_some g _ g2 h (Newline_Tabs g flags)
        · cases h
      · exact Tabs_of_some g _ g2 h (by rw [Semicolon_Tabs]; exact Newline_Tabs g flags)
    | _ => exact Tabs_of_some g _ g2 h (by rw [Semicolon_Tabs]; exact Newline_Tabs g flags)
  | .IncDecStmt _ _, flags, g, g2, _, h =>
    Tabs_of_some g _ g2 h (by rw [Semicolon_Tabs]; exact Newline_Tabs g flags)
  | .ReturnStmt Results, flags, g, g2, _, h => by
    cases Results <;>
      exact Tabs_of_some g _ g2 h (by rw [Semicolon_Tabs]; exact Newline_Tabs g flags)
  | .DeclStmt decl, flags, g, g2, _, h => by
    cases decl with
    | GenDecl Tok Specs =>
      have e : MakeStmt env g (.DeclStmt (.GenDecl Tok Specs)) flags =
          if Tok = Token.VAR then DeclVarSpecs env Specs (g.Newline flags)
          else some (g.Newline flags) := rfl
      rw [e] at h
      split at h
      · rw [DeclVarSpecs_Tabs env _ _ _ h]; exact Newline_Tabs g flags
      · exact Tabs_of_some g _ g2 h (Newline_Tabs g flags)
    | BadDecl => exact absurd (show (none : Option Emit) = some g2 from h) (by simp)
  | .ForStmt none Cond none Body, flags, g, g2, hlt, h => by
    cases Cond <;>
      exact MakeStmts_Tabs_at env Body _ (MakeStmtsLoop_Tabs env Body _) g _ g2 hlt h
        (Newline_Tabs g flags)
  | .ForStmt (some init) Cond none Body, flags, g, g2, hlt, h => by
    obtain ⟨f, hf, e⟩ : ∃ f : Emit → Emit, (∀ x, (f x).cb.Tabs = g.cb.Tabs) ∧
        MakeStmt env g (.ForStmt (some init) Cond none Body) flags =
          (MakeStmt env (((g.Newline flags).WriteString
            (WriteTabStr (g.Newline flags).cb.Tabs ++ "for (".toList)).SetTabs 0) init 0).bind
            (fun g1 => MakeStmts env (f g1) Body (GENFLAG_NEWLINE ||| GENFLAG_SEMICOLON)) := by
      cases Cond with
      | none =>
        exact ⟨fun g1 => (((g1.SetTabs (g.Newline flags).cb.Tabs).WriteString
          ";".toList).WriteString ";".toList).WriteString ")".toList,
          fun _ => Newline_Tabs g flags, rfl⟩
      | some cond =>
        exact ⟨fun g1 => (((((g1.SetTabs (g.Newline flags).cb.Tabs).WriteString
          ";".toList).WriteString " ".toList).WriteString (GetExprString cond)).WriteString
          ";".toList).WriteString ")".toList,
          fun _ => Newline_Tabs g flags, rfl⟩
    rw [e, Option.bind_eq_some] at h
    obtain ⟨g1, _, h2⟩ := h
    exact MakeStmts_Tabs_at env Body _ (MakeStmtsLoop_Tabs env Body _) g _ g2 hlt h2 (hf g1)
  | .ForStmt none Cond (some post) Body, flags, g, g2, hlt, h => by
    obtain ⟨f, e⟩ : ∃ f : Emit,
        MakeStmt env g (.ForStmt none Cond (some post) Body) flags =
          (MakeStmt env (f.SetTabs 0) post 0).bind
            (fun g3 => MakeStmts env
              ((g3.SetTabs (g.Newline flags).cb.Tabs).WriteString ")".toList) Body
              (GENFLAG_NEWLINE ||| GENFLAG_SEMICOLON)) := by
      cases Cond with
      | none =>
        exact ⟨((((g.Newline flags).WriteString
          (WriteTabStr (g.Newline flags).cb.Tabs ++ "for (".toList)).WriteString
          ";".toList).WriteString ";".toList).WriteString " ".toList, rfl⟩
      | some cond =>
        exact ⟨((((((g.Newline flags).WriteString
          (WriteTabStr (g.Newline flags).cb.Tabs ++ "for (".toList)).WriteString
          ";".toList).WriteString " ".toList).WriteString (GetExprString cond)).WriteString
          ";".toList).WriteString " ".toList, rfl⟩
    rw [e, Option.bind_eq_some] at h
    obtain ⟨g3, _, h2⟩ := h
    exact MakeStmts_Tabs_at env Body _ (MakeStmtsLoop_Tabs env Body _) g _ g2 hlt h2
      (Newline_Tabs g flags)
  | .ForStmt (some init) Cond (some post) Body, flags, g, g2, hlt, h => by
    obtain ⟨f, e⟩ : ∃ f : Emit → Emit,
        MakeStmt env g (.ForStmt (some init) Cond (some post) Body) flags =
          (MakeStmt env (((g.Newline flags).WriteString
            (WriteTabStr (g.Newline flags).cb.Tabs ++ "for (".toList)).SetTabs 0) init 0).bind
            (fun g1 =>
              (MakeStmt env ((f g1).SetTabs 0) post 0).bind
                (fun g3 => MakeStmts env
                  ((g3.SetTabs (g.Newline flags).cb.Tabs).WriteString ")".toList) Body
                  (GENFLAG_NEWLINE ||| GENFLAG_SEMICOLON))) := by
      cases Cond with
      | none =>
        exact ⟨fun g1 => (((g1.SetTabs (g.Newline flags).cb.Tabs).WriteString
          ";".toList).WriteString ";".toList).WriteString " ".toList, rfl⟩
      | some cond =>
        exact ⟨fun g1 => (((((g1.SetTabs (g.Newline flags).cb.Tabs).WriteString
          ";".toList).WriteString " ".toList).WriteString (GetExprString cond)).WriteString
          ";".toList).WriteString " ".toList, rfl⟩
    rw [e, Option.bind_eq_some] at h
    obtain ⟨g1, _, h0⟩ := h
    rw [Option.bind_eq_some] at h0
    obtain ⟨g3, _, h2⟩ := h0
    exact MakeStmts_Tabs_at env Body _ (MakeStmtsLoop_Tabs env Body _) g _ g2 hlt h2
      (Newline_Tabs g flags)
  | .IfStmt Init Cond Body Else, flags, g, g2, hlt, h => by
    have e : MakeStmt env g (.IfStmt Init Cond Body Else) flags =
        (MakeStmts env
          (((g.Newline flags).WriteString (WriteTabStr (g.Newline flags).cb.Tabs)).WriteString
            ("if (".toList ++ GetExprString Cond ++ ")".toList)) Body
          (GENFLAG_NEWLINE ||| GENFLAG_SEMICOLON)).bind
          (fun g1 => MakeIfElse env (WriteTabStr (g.Newline flags).cb.Tabs) g1 Else) := rfl
    rw [e, Option.bind_eq_some] at h
    obtain ⟨g1, h1, h2⟩ := h
    have e1 := MakeStmts_Tabs_at env Body _ (MakeStmtsLoop_Tabs env Body _) g _ g1 hlt h1
      (Newline_Tabs g flags)
    rw [MakeIfElse_Tabs env Else _ g1 g2 (e1 ▸ hlt) h2, e1]
  | .BranchStmt _ _, flags, g, g2, _, h =>
    Tabs_of_some g _ g2 h (by rw [Semicolon_Tabs]; exact Newline_Tabs g flags)
  | .RangeStmt _ _ _ _ Body, flags, g, g2, hlt, h =>
    MakeStmts_Tabs_at env Body _ (MakeStmtsLoop_Tabs env Body _) g _ g2 hlt h
      (Newline_Tabs g flags)
  | .SwitchStmt _ (some tag) Body, flags, g, g2, hlt, h =>
    MakeStmts_Tabs_at env Body _ (MakeStmtsLoop_Tabs env Body _) g _ g2 hlt h
      (Newline_Tabs g flags)
  | .SwitchStmt Init none Body, flags, g, g2, hlt, h => by
    have e : MakeStmt env g (.SwitchStmt Init none Body) flags =
        if Body.all Stmt.isCaseClause then
          MakeSwitchCases env (WriteTabStr (g.Newline flags).cb.Tabs) Body.length
            (g.Newline flags) 0 Body
        else none := rfl
    rw [e] at h
    split at h
    · rw [MakeSwitchCases_Tabs env Body _ _ _ _ g2 ((Newline_Tabs g flags).symm ▸ hlt) h]
      exact Newline_Tabs g flags
    · cases h
  | .CaseClause list Body, flags, g, g2, hlt, h => by
    rw [MakeStmt_CaseClause] at h
    exact MakeStmts_Tabs_at env Body _ (MakeStmtsLoop_Tabs env Body _) g _ g2 hlt h
      (Newline_Tabs g flags)
  | .EmptyStmt, flags, g, g2, _, h =>
    Tabs_of_some g _ g2 h (by rw [Semicolon_Tabs]; exact Newline_Tabs g flags)
  | .CommClause _ _, flags, g, g2, _, h =>
    Tabs_of_some g _ g2 h (by rw [Semicolon_Tabs]; exact Newline_Tabs g flags)
  | .DeferStmt _, flags, g, g2, _, h =>
    Tabs_of_some g _ g2 h (by rw [Semicolon_Tabs]; exact Newline_Tabs g flags)
  | .TypeSwitchStmt _ _ _, flags, g, g2, _, h =>
    Tabs_of_some g _ g2 h (by rw [Semicolon_Tabs]; exact Newline_Tabs g flags)
  | .LabeledStmt _ _, flags, g, g2, _, h =>
    Tabs_of_some g _ g2 h (by rw [Semicolon_Tabs]; exact Newline_Tabs g flags)
  | .GoStmt _, flags, g, g2, _, h =>
    Tabs_of_some g _ g2 h (by rw [Semicolon_Tabs]; exact Newline_Tabs g flags)
  | .SelectStmt _, flags, g, g2, _, h =>
    Tabs_of_some g _ g2 h (by rw [Semicolon_Tabs]; exact Newline_Tabs g flags)
  | .SendStmt _ _, flags, g, g2, _, h =>
    Tabs_of_some g _ g2 h (by rw [Semicolon_Tabs]; exact Newline_Tabs g flags)
  | .BadStmt, flags, g, g2, _, h =>
    Tabs_of_some g _ g2 h (by rw [Semicolon_Tabs]; exact Newline_Tabs g flags)
theorem MakeStmtsLoop_Tabs (env : ASTMod) :
    ∀ (stmts : List Stmt) (flags : Nat) (g g2 : Emit), g.cb.Tabs < 2 ^ 64 →
      MakeStmtsLoop env g stmts flags = some g2 → g2.cb.Tabs = g.cb.Tabs
  | [], _, g, g2, _, h => Tabs_of_some g _ g2 h rfl
  | stmt :: rest, flags, g, g2, hlt, h => by
    rw [MakeStmtsLoop_cons, Option.bind_eq_some] at h
    obtain ⟨g1, h1, h2⟩ := h
    have e1 := MakeStmt_Tabs env stmt flags g g1 hlt h1
    rw [MakeStmtsLoop_Tabs env rest flags g1 g2 (e1 ▸ hlt) h2, e1]
theorem MakeIfElse_Tabs (env : ASTMod) :
    ∀ (Else : Option Stmt) (tabstr : Str) (g g2 : Emit), g.cb.Tabs < 2 ^ 64 →
      MakeIfElse env tabstr g Else = some g2 → g2.cb.Tabs = g.cb.Tabs
  | none, _, g, g2, _, h => Tabs_of_some g _ g2 h rfl
  | some (.IfStmt Init Cond Body Else), tabstr, g, g2, hlt, h => by
    have e : MakeIfElse env tabstr g (some (.IfStmt Init Cond Body Else)) =
        (MakeStmts env
          ((g.WriteString ("\n".toList ++ tabstr ++ "else ".toList)).WriteString
            ("if (".toList ++ GetExprString Cond ++ ")".toList)) Body
          (GENFLAG_NEWLINE ||| GENFLAG_SEMICOLON)).bind
          (fun g1 => MakeIfElse env tabstr g1 Else) := rfl
    rw [e, Option.bind_eq_some] at h
    obtain ⟨g1, h1, h2⟩ := h
    have e1 := MakeStmts_Tabs_at env Body _ (MakeStmtsLoop_Tabs env Body _) g _ g1 hlt h1 rfl
    rw [MakeIfElse_Tabs env Else tabstr g1 g2 (e1 ▸ hlt) h2, e1]
  | some (.BlockStmt list), tabstr, g, g2, hlt, h =>
    MakeStmts_Tabs_at env list _ (MakeStmtsLoop_Tabs env list _) g _ g2 hlt h rfl
  | some (.AssignStmt _ _ _), _, _, g2, _, h
  | some (.ExprStmt _), _, _, g2, _, h
  | some (.IncDecStmt _ _), _, _, g2, _, h
  | some (.ReturnStmt _), _, _, g2, _, h
  | some (.DeclStmt _), _, _, g2, _, h
  | some (.ForStmt _ _ _ _), _, _, g2, _, h
  | some (.BranchStmt _ _), _, _, g2, _, h
  | some (.RangeStmt _ _ _ _ _), _, _, g2, _, h
  | some (.SwitchStmt _ _ _), _, _, g2, _, h
  | some (.CaseClause _ _), _, _, g2, _, h
  | some .EmptyStmt, _, _, g2, _, h
  | some (.CommClause _ _), _, _, g2, _, h
  | some (.DeferStmt _), _, _, g2, _, h
  | some (.TypeSwitchStmt _ _ _), _, _, g2, _, h
  | some (.LabeledStmt _ _), _, _, g2, _, h
  | some (.GoStmt _), _, _, g2, _, h
  | some (.SelectStmt _), _, _, g2, _, h
  | some (.SendStmt _ _), _, _, g2, _, h
  | some .BadStmt, _, _, g2, _, h =>
    absurd (show (none : Option Emit) = some g2 from h) (by simp)
theorem MakeSwitchCases_Tabs (env : ASTMod) :
    ∀ (case_list : List Stmt) (tabstr : Str) (cases i : Nat) (g g2 : Emit),
      g.cb.Tabs < 2 ^ 64 →
      MakeSwitchCases env tabstr cases g i case_list = some g2 → g2.cb.Tabs = g.cb.Tabs
  | [], _, _, _, g, g2, _, h => Tabs_of_some g _ g2 h rfl
  | .CaseClause list Body :: rest, tabstr, cases, i, g, g2, hlt, h => by
    rw [MakeSwitchCases_cons, Option.bind_eq_some] at h
    obtain ⟨g1, h1, h2⟩ := h
    have e1 := MakeStmts_Tabs_at env Body _ (MakeStmtsLoop_Tabs env Body _) g _ g1 hlt h1
      (SwitchCase_head_Tabs tabstr cases i list g)
    have e2 : (if i + 1 ≠ cases then g1.WriteString "\n".toList else g1).cb.Tabs = g.cb.Tabs := by
      split <;> exact e1
    rw [MakeSwitchCases_Tabs env rest tabstr cases (i + 1) _ g2 (e2 ▸ hlt) h2, e2]
  | .BlockStmt _ :: _, _, _, _, _, g2, _, h
  | .AssignStmt _ _ _ :: _, _, _, _, _, g2, _, h
  | .ExprStmt _ :: _, _, _, _, _, g2, _, h
  | .IncDecStmt _ _ :: _, _, _, _, _, g2, _, h
  | .ReturnStmt _ :: _, _, _, _, _, g2, _, h
  | .DeclStmt _ :: _, _, _, _, _, g2, _, h
  | .ForStmt _ _ _ _ :: _, _, _, _, _, g2, _, h
  | .IfStmt _ _ _ _ :: _, _, _, _, _, g2, _, h
  | .BranchStmt _ _ :: _, _, _, _, _, g2, _, h
  | .RangeStmt _ _ _ _ _ :: _, _, _, _, _, g2, _, h
  | .SwitchStmt _ _ _ :: _, _, _, _, _, g2, _, h
  | .EmptyStmt :: _, _, _, _, _, g2, _, h
  | .CommClause _ _ :: _, _, _, _, _, g2, _, h
  | .DeferStmt _ :: _, _, _, _, _, g2, _, h
  | .TypeSwitchStmt _ _ _ :: _, _, _, _, _, g2, _, h
  | .LabeledStmt _ _ :: _, _, _, _, _, g2, _, h
  | .GoStmt _ :: _, _, _, _, _, g2, _, h
  | .SelectStmt _ :: _, _, _, _, _, g2, _, h
  | .SendStmt _ _ :: _, _, _, _, _, g2, _, h
  | .BadStmt :: _, _, _, _, _, g2, _, h =>
    absurd (show (none : Option Emit) = some g2 from h) (by simp)
end

theorem MakeFuncBlock_Tabs (env : ASTMod) (f : FuncDecl) (errs : List SrcGoErr) (g2 : Emit)
    (h : MakeFuncBlock env f errs = some g2) :
    g2.cb.Tabs = if f.Recv.isSome then 1 else 0 := by
  unfold MakeFuncBlock at h
  simp only at h
  split at h
  · cases h
  · split at h
    · rename_i body _
      refine MakeStmts_Tabs env body _ (MakeStmtsLoop_Tabs env body _) _ g2 ?_ h
      show (if f.Recv.isSome then 1 else 0) < 2 ^ 64
      split <;> norm_num
    · cases h
      rfl

/-- C20: `MakeStmt` and `MakeStmts`, when they return, leave `cb.Tabs` at the value it had
before the call (a `uint`, so below `2 ^ 64`), for every statement, statement list and flag
set: nested blocks take the increment back, and the init and post clause of a for statement
run at indent 0 and the old value is restored. So the function block that `MakeFuncDecl`
builds has indent 0 for a free function, which is appended to `plugin.Funcs`, and 1 for a
method. -/
theorem C20_indent_restored (env : ASTMod) (g : Emit) (flags : Nat)
    (hlt : g.cb.Tabs < 2 ^ 64) :
    (∀ (stmt : Stmt) (g2 : Emit), MakeStmt env g stmt flags = some g2 →
        g2.cb.Tabs = g.cb.Tabs) ∧
      (∀ (stmts : List Stmt) (g2 : Emit), MakeStmts env g stmts flags = some g2 →
        g2.cb.Tabs = g.cb.Tabs) ∧
      (∀ (f : FuncDecl) (errs : List SrcGoErr) (g2 : Emit),
        MakeFuncBlock env f errs = some g2 →
          g2.cb.Tabs = if f.Recv.isSome then 1 else 0) ∧
      (∀ (b b2 : Build) (f : FuncDecl), f.Recv = none → MakeFuncDecl env b f = some b2 →
        ∃ fn : FuncBlock, b2.plugin.Funcs = b.plugin.Funcs ++ [fn] ∧ fn.Tabs = 0) := by
  refine ⟨fun stmt g2 h => MakeStmt_Tabs env stmt flags g g2 hlt h,
    fun stmts g2 h => MakeStmts_Tabs env stmts flags (MakeStmtsLoop_Tabs env stmts flags) g g2
      hlt h,
    fun f errs g2 h => MakeFuncBlock_Tabs env f errs g2 h, ?_⟩
  intro b b2 f hr h
  unfold MakeFuncDecl at h
  cases hb : MakeFuncBlock env f b.errs with
  | none => simp [hb] at h
  | some g1 =>
    have ht := MakeFuncBlock_Tabs env f b.errs g1 hb
    simp only [hb, hr] at h
    cases h
    exact ⟨g1.cb, rfl, by simpa [hr] using ht⟩

/-- C20, witness: the statement `for i := 0; c; i++ { if c { A() } else { B() } }` at
indent 1 with both flags, which is generated without a panic. -/
theorem C20_indent_restored_witness :
    SampleEmit.cb.Tabs < 2 ^ 64 ∧
      (MakeStmt SampleEnv SampleEmit SampleFor 3).map (fun g2 => g2.cb.Tabs) = some 1 ∧
      ((∀ (stmt : Stmt) (g2 : Emit), MakeStmt SampleEnv SampleEmit stmt 3 = some g2 →
          g2.cb.Tabs = SampleEmit.cb.Tabs) ∧
        (∀ (stmts : List Stmt) (g2 : Emit), MakeStmts SampleEnv SampleEmit stmts 3 = some g2 →
          g2.cb.Tabs = SampleEmit.cb.Tabs) ∧
        (∀ (f : FuncDecl) (errs : List SrcGoErr) (g2 : Emit),
          MakeFuncBlock SampleEnv f errs = some g2 →
            g2.cb.Tabs = if f.Recv.isSome then 1 else 0) ∧
        (∀ (b b2 : Build) (f : FuncDecl), f.Recv = none →
          MakeFuncDecl SampleEnv b f = some b2 →
          ∃ fn : FuncBlock, b2.plugin.Funcs = b.plugin.Funcs ++ [fn] ∧ fn.Tabs = 0)) :=
  ⟨by decide, by decide, C20_indent_restored SampleEnv SampleEmit 3 (by decide)⟩

/-! ### Assignments with a non-defining operator -/

theorem WriteString_nil (g : Emit) : g.WriteString [] = g := by
  simp [Emit.WriteString]

theorem getIdx_append_length (pre : List Expr) (r : Expr) (rs : List Expr) :
    (pre ++ r :: rs).get? pre.length = some r := by
  induction pre with
  | nil => rfl
  | cons a pre ih => simpa using ih

theorem AssignPairs_eq (tabstr : Str) (flags left_len : Nat) (Tok : Token) :
    ∀ (Lhs Rhs pre : List Expr) (g : Emit), Lhs.length = Rhs.length →
      pre.length + Lhs.length = left_len →
      AssignPairs tabstr flags left_len Tok (pre ++ Rhs) pre.length Lhs g =
        some (g.WriteString
          ("\n".toList.intercalate (List.zipWith (AssignEntry tabstr flags Tok) Lhs Rhs))) := by
  intro Lhs
  induction Lhs with
  | nil =>
    intro Rhs pre g h _
    cases Rhs with
    | nil => simp [AssignPairs, List.intercalate, WriteString_nil]
    | cons r rs => simp at h
  | cons l ls ih =>
    intro Rhs pre g h hlen
    cases Rhs with
    | nil => simp at h
    | cons r rs =>
      have hls : ls.length = rs.length := by simpa using h
      rw [AssignPairs, getIdx_append_length]
      simp only
      have hpre : pre ++ r :: rs = (pre ++ [r]) ++ rs := by simp
      have hidx : pre.length + 1 = (pre ++ [r]).length := by simp
      rw [hpre, hidx, ih rs (pre ++ [r]) _ hls (by simp at hlen ⊢; omega)]
      congr 1
      cases ls with
      | nil =>
        cases rs with
        | nil =>
          have e : pre.length + 1 = left_len := by simpa using hlen
          by_cases hs : flags &&& GENFLAG_SEMICOLON > 0 <;>
            simp [e, hs, AssignEntry, List.intercalate, WriteString_WriteString,
              WriteString_nil]
        | cons r2 rs2 => simp at hls
      | cons l2 ls2 =>
        cases rs with
        | nil => simp at hls
        | cons r2 rs2 =>
          have e : pre.length + 1 ≠ left_len := by simp at hlen; omega
          have e2 : (pre ++ [r]).length ≠ left_len := by simp; simp at hlen; omega
          simp only [List.zipWith_cons_cons, intercalate_cons_cons]
          by_cases hs : flags &&& GENFLAG_SEMICOLON > 0 <;>
            simp [e, e2, hs, AssignEntry, WriteString_WriteString]

theorem AssignBroadcast_eq (tabstr : Str) (flags left_len : Nat) (Tok : Token) (rhs : Expr) :
    ∀ (Lhs : List Expr) (i : Nat) (g : Emit), i + Lhs.length = left_len →
      AssignBroadcast tabstr flags left_len Tok rhs i Lhs g =
        g.WriteString ("\n".toList.intercalate
          (Lhs.map (fun lhs => AssignEntry tabstr flags Tok lhs rhs))) := by
  intro Lhs
  induction Lhs with
  | nil => intro i g _; simp [AssignBroadcast, List.intercalate, WriteString_nil]
  | cons l ls ih =>
    intro i g hlen
    rw [AssignBroadcast]
    rw [ih (i + 1) _ (by simp at hlen ⊢; omega)]
    cases ls with
    | nil =>
      have e : i + 1 = left_len := by simpa using hlen
      by_cases hs : flags &&& GENFLAG_SEMICOLON > 0 <;>
        simp [e, hs, AssignEntry, List.intercalate, WriteString_WriteString, WriteString_nil]
    | cons l2 ls2 =>
      have e : i + 1 ≠ left_len := by simp at hlen; omega
      simp only [List.map_cons, intercalate_cons_cons]
      by_cases hs : flags &&& GENFLAG_SEMICOLON > 0 <;>
        simp [e, hs, AssignEntry, WriteString_WriteString]

/-- C21: for an assignment with a non-defining operator `Tok`, `MakeStmt` appends, after the
optional new line, the entries joined by a new line, an entry being the indent, the target,
" op " and the value, with one ";" at its end when `GENFLAG_SEMICOLON` is set: with as many
values as targets, entry `i` pairs target `i` with value `i` and there are as many entries
as targets; with one value, every target gets an entry with that value. -/
theorem C21_assignment_entries (env : ASTMod) (g : Emit) (Lhs : List Expr) (Tok : Token)
    (Rhs : List Expr) (flags : Nat) (hTok : Tok ≠ Token.DEFINE) :
    (Lhs.length = Rhs.length →
        MakeStmt env g (.AssignStmt Lhs Tok Rhs) flags =
            some ((g.Newline flags).WriteString ("\n".toList.intercalate
              (List.zipWith (AssignEntry (WriteTabStr g.cb.Tabs) flags Tok) Lhs Rhs))) ∧
          (List.zipWith (AssignEntry (WriteTabStr g.cb.Tabs) flags Tok) Lhs Rhs).length =
            Lhs.length) ∧
      (∀ rhs : Expr, Rhs = [rhs] →
        MakeStmt env g (.AssignStmt Lhs Tok Rhs) flags =
            some ((g.Newline flags).WriteString ("\n".toList.intercalate
              (Lhs.map (fun lhs => AssignEntry (WriteTabStr g.cb.Tabs) flags Tok lhs rhs)))) ∧
          (Lhs.map (fun lhs => AssignEntry (WriteTabStr g.cb.Tabs) flags Tok lhs rhs)).length =
            Lhs.length) ∧
      (MakeStmt SampleEnv SampleEmit
          (.AssignStmt [SampleName "a", SampleName "b"] .ADD_ASSIGN
            [SampleLit "1", SampleLit "2"]) 3).map (fun g2 => g2.cb.Body) =
        some "\n\ta += 1;\n\tb += 2;".toList ∧
      (MakeStmt SampleEnv SampleEmit
          (.AssignStmt [SampleName "a", SampleName "b"] .ASSIGN [SampleLit "0"]) 3).map
          (fun g2 => g2.cb.Body) = some "\n\ta = 0;\n\tb = 0;".toList := by
  have hpairs : Lhs.length = Rhs.length →
      MakeStmt env g (.AssignStmt Lhs Tok Rhs) flags =
        some ((g.Newline flags).WriteString ("\n".toList.intercalate
          (List.zipWith (AssignEntry (WriteTabStr g.cb.Tabs) flags Tok) Lhs Rhs))) := by
    intro hlen
    rw [MakeStmt_AssignStmt, if_neg hTok, if_pos hlen, Newline_Tabs]
    exact AssignPairs_eq _ flags _ Tok Lhs Rhs [] _ hlen (by simp)
  refine ⟨fun hlen => ⟨hpairs hlen, by simp [hlen]⟩, ?_, by decide, by decide⟩
  intro rhs hR
  subst hR
  refine ⟨?_, by simp⟩
  by_cases hlen : Lhs.length = [rhs].length
  · rw [hpairs hlen]
    cases Lhs with
    | nil => simp at hlen
    | cons l ls =>
      cases ls with
      | nil => rfl
      | cons l2 ls2 => simp at hlen
  · rw [MakeStmt_AssignStmt, if_neg hTok, if_neg hlen, Newline_Tabs]
    simp only
    rw [AssignBroadcast_eq _ flags _ Tok rhs Lhs 0 _ (by simp)]

/-- C21, witness: the assignment `a, b = x, y` at indent 1 with both flags. -/
theorem C21_assignment_entries_witness :
    Token.ASSIGN ≠ Token.DEFINE ∧
      [SampleName "a", SampleName "b"].length = [SampleName "x", SampleName "y"].length ∧
      MakeStmt SampleEnv SampleEmit
          (.AssignStmt [SampleName "a", SampleName "b"] .ASSIGN
            [SampleName "x", SampleName "y"]) 3 =
        some ((SampleEmit.Newline 3).WriteString ("\n".toList.intercalate
          (List.zipWith (AssignEntry (WriteTabStr SampleEmit.cb.Tabs) 3 .ASSIGN)
            [SampleName "a", SampleName "b"] [SampleName "x", SampleName "y"]))) :=
  ⟨by decide, by decide,
    ((C21_assignment_entries SampleEnv SampleEmit [SampleName "a", SampleName "b"] .ASSIGN
      [SampleName "x", SampleName "y"] 3 (by decide)).1 (by decide)).1⟩

/-! ### Methods without a registered struct -/

/-- C22: for a method declaration whose receiver type renders to a name that is no key of
`plugin.Structs`, `MakeFuncDecl` returns exactly when building the function block does, and
then the plugin is the one before the call (includes, globals, structs with their fields and
methods, free functions), and the log of the reporter is the log after the function block was
built followed by what rendering the receiver type reported: nothing is reported for the
dropped method. -/
theorem C22_dropped_method_frame (env : ASTMod) (b : Build) (f : FuncDecl)
    (field : List Ident × Expr) (rest : List (List Ident × Expr))
    (hr : f.Recv = some (field :: rest))
    (hmiss : MapLookup b.plugin.Structs (GetTypeString env field.2 [] false).1 = none) :
    MakeFuncDecl env b f =
        (MakeFuncBlock env f b.errs).map
          (fun g => ⟨b.plugin, g.errs ++ (GetTypeString env field.2 [] false).2⟩) ∧
      (∀ g : Emit, MakeFuncBlock env f b.errs = some g →
        ∃ b2 : Build, MakeFuncDecl env b f = some b2 ∧ b2.plugin = b.plugin ∧
          b2.plugin.Includes = b.plugin.Includes ∧ b2.plugin.Globals = b.plugin.Globals ∧
          b2.plugin.Structs = b.plugin.Structs ∧ b2.plugin.Funcs = b.plugin.Funcs ∧
          b2.errs = g.errs ++ (GetTypeString env field.2 [] false).2) ∧
      (∀ b2 : Build, MakeFuncDecl env b f = some b2 →
        b2.plugin.Includes = b.plugin.Includes ∧ b2.plugin.Globals = b.plugin.Globals ∧
          b2.plugin.Structs = b.plugin.Structs ∧ b2.plugin.Funcs = b.plugin.Funcs) := by
  have heq : MakeFuncDecl env b f =
      (MakeFuncBlock env f b.errs).map
        (fun g => ⟨b.plugin, g.errs ++ (GetTypeString env field.2 [] false).2⟩) := by
    unfold MakeFuncDecl
    cases hb : MakeFuncBlock env f b.errs with
    | none => rfl
    | some g => simp only [hr, hmiss, Option.map_some']
  refine ⟨heq, ?_, ?_⟩
  · intro g hb
    rw [heq, hb]
    exact ⟨_, rfl, rfl, rfl, rfl, rfl, rfl, rfl⟩
  · intro b2 h
    rw [heq] at h
    cases hb : MakeFuncBlock env f b.errs with
    | none => rw [hb] at h; cases h
    | some g =>
      rw [hb] at h
      cases h
      exact ⟨rfl, rfl, rfl, rfl⟩

/-- C22, witness: the method `func (v Vec3) Len() int { return 0 }` while the only struct is
registered under the key "Vec3" and the receiver type renders to "Vec". -/
theorem C22_dropped_method_frame_witness :
    ((SampleMethod false).Recv = some (([SampleIdent "v"], SampleName "Vec3") :: []) ∧
      MapLookup SampleBuildVec3.plugin.Structs
        (GetTypeString SampleEnvTyped (SampleName "Vec3") [] false).1 = none ∧
      MakeFuncBlock SampleEnvTyped (SampleMethod false) SampleBuildVec3.errs =
        some SampleLenBlock) ∧
    ∃ b2 : Build, MakeFuncDecl SampleEnvTyped SampleBuildVec3 (SampleMethod false) = some b2 ∧
      b2.plugin = SampleBuildVec3.plugin ∧
      b2.plugin.Includes = SampleBuildVec3.plugin.Includes ∧
      b2.plugin.Globals = SampleBuildVec3.plugin.Globals ∧
      b2.plugin.Structs = SampleBuildVec3.plugin.Structs ∧
      b2.plugin.Funcs = SampleBuildVec3.plugin.Funcs ∧
      b2.errs = SampleLenBlock.errs ++
        (GetTypeString SampleEnvTyped (SampleName "Vec3") [] false).2 :=
  ⟨⟨rfl, by decide, rfl⟩,
    (C22_dropped_method_frame SampleEnvTyped SampleBuildVec3 (SampleMethod false)
      ([SampleIdent "v"], SampleName "Vec3") [] rfl (by decide)).2.1 SampleLenBlock rfl⟩

end GoToSPGen
